import Mathlib

/-!
# Verification of the scrapesavee ingestion pipeline

Shallow embedding, in Lean 4, of the parts of the `scrapesavee` repository
that the specification's claims are about:

* the RabbitMQ job-consumer retry/dead-letter handler
  (`apps/worker/app/queue/consumers.py`),
* the block upsert / override persistence layer
  (`apps/worker/app/database/blocks.py`, item consumer in `consumers.py`),
* the content-addressed R2 media store (`apps/worker/app/storage/r2.py`),
* the crawl-discovery engine and its persisted seen-set
  (`saveescraper/savee_scraper.py`).

Python functions are translated into executable Lean definitions; stateful
code is modelled by explicit state passing; Python exceptions are modelled
with `Except`/`Option`; external effects (network fetches, the SHA-256
digest, PIL thumbnail encoding) enter as explicit function arguments, so
every theorem quantifies over their behaviour.
-/

namespace Consumers

/-!
## Queue consumer error handling (`apps/worker/app/queue/consumers.py`)

`JobConsumer.handle_message_error` decodes the message body into a local
dict `job_data`.  When `retry_count < max_retries` it mutates that local
dict (incrementing `retry_count`, recording `last_error` and
`last_retry_at`), sleeps `min(2 ** retry_count, 60)` seconds and then calls
`message.nack(requeue=True)`; otherwise it calls
`message.nack(requeue=False)`, which dead-letters the message.

A negative acknowledgement with `requeue=True` returns the *original*
message, with its original body, to the queue; the mutated local dict is
never republished.  The model keeps the mutated local dict as an explicit
result component so that this distinction is visible.
-/

/-- The job message body (`job_data` dict) as produced by
`JobProducer.queue_item_job` / `queue_sweep_job` and read by
`handle_message_error`. -/
structure JobData where
  job_id : String
  retry_count : Nat
  max_retries : Nat
  last_error : Option String
  last_retry_at : Option String
  deriving Repr, DecidableEq

/-- The two negative-acknowledgement calls the error handler can make. -/
inductive NackAction where
  /-- `message.nack(requeue=True)`: the broker requeues the original message. -/
  | requeue
  /-- `message.nack(requeue=False)`: the broker routes the message to the DLQ. -/
  | toDlq
  deriving Repr, DecidableEq

/-- Embedding of `JobConsumer.handle_message_error` (consumers.py:108-134).
Returns the locally mutated `job_data` dict (used only for log output), the
backoff delay in seconds, and the nack action performed on the message. -/
def handle_message_error (body : JobData) (error : String) (now : String) :
    JobData × Nat × NackAction :=
  let retry_count := body.retry_count
  let max_retries := body.max_retries
  if retry_count < max_retries then
    ({ body with
        retry_count := retry_count + 1
        last_error := some error
        last_retry_at := some now },
      min (2 ^ retry_count) 60, NackAction.requeue)
  else
    (body, 0, NackAction.toDlq)

/-- Broker-side state of one job message. -/
inductive MsgState where
  /-- The message sits in its main queue with the given body. -/
  | queued (body : JobData)
  /-- The message has been routed to the bound dead-letter queue. -/
  | dead (body : JobData)
  deriving Repr, DecidableEq

/-- One failed processing attempt: the consumer raises, the error handler
runs, and the broker interprets the nack.  `nack(requeue=True)` requeues the
original message body unchanged (aio-pika redelivers the same message); the
locally mutated dict built inside `handle_message_error` is discarded. -/
def failure_step (error : String) (now : String) : MsgState → MsgState
  | MsgState.queued body =>
      match (handle_message_error body error now).2.2 with
      | NackAction.requeue => MsgState.queued body
      | NackAction.toDlq => MsgState.dead body
  | MsgState.dead body => MsgState.dead body

/-- `n` consecutive failed processing attempts. -/
def failure_iter (error : String) (now : String) : Nat → MsgState → MsgState
  | 0, s => s
  | n + 1, s => failure_iter error now n (failure_step error now s)

/-- The item-job body published by `JobProducer.queue_item_job`
(producer.py:127-139): `retry_count = 0`, `max_retries = 5`. -/
def producerItemJob (jobId : String) : JobData :=
  { job_id := jobId
    retry_count := 0
    max_retries := 5
    last_error := none
    last_retry_at := none }

end Consumers

namespace Json

/-!
## JSON values

Several embedded functions manipulate the results of Python's
`json.loads` / `json.dumps`.  `JVal` is the shape of a decoded JSON
document.  Numbers are kept as their source lexeme: no embedded function
ever computes with a JSON number, it only matters whether a value *is* a
number, a string, a list or a dict.
-/

/-- A decoded JSON value (the result of a successful `json.loads`). -/
inductive JVal where
  | jnull
  | jbool (b : Bool)
  | jnum (lexeme : String)
  | jstr (s : String)
  | jarr (elems : List JVal)
  | jobj (fields : List (String × JVal))

/-- The hashable JSON scalars: exactly the decoded values Python can put
into a `set` (lists and dicts raise `TypeError: unhashable type`). -/
inductive JScalar where
  | snull
  | sbool (b : Bool)
  | snum (lexeme : String)
  | sstr (s : String)
  deriving Repr, DecidableEq

/-- The scalar view of a JSON value; `none` for the unhashable values. -/
def JVal.scalar? : JVal → Option JScalar
  | JVal.jnull => some JScalar.snull
  | JVal.jbool b => some (JScalar.sbool b)
  | JVal.jnum lexeme => some (JScalar.snum lexeme)
  | JVal.jstr s => some (JScalar.sstr s)
  | JVal.jarr _ => none
  | JVal.jobj _ => none

/-- `True` exactly for `isinstance(data, list)`. -/
def JVal.isArr : JVal → Bool
  | JVal.jarr _ => true
  | _ => false

/-- Looking a key up in a decoded JSON object.  `json.loads` builds a
Python dict, where a duplicated key keeps its last occurrence. -/
def objLookup (fields : List (String × JVal)) (k : String) : Option JVal :=
  (fields.reverse.find? (fun kv => kv.1 == k)).map (fun kv => kv.2)

/-- `True` exactly for `isinstance(data, dict) and "ids" in data`. -/
def JVal.hasIdsKey : JVal → Bool
  | JVal.jobj fields => (objLookup fields "ids").isSome
  | _ => false

end Json

namespace SaveeScraper

/-!
## Identifier validation and discovery (`saveescraper/savee_scraper.py`)

The listing HTML is scanned by five stages; each stage's regular
expressions are embedded as explicit scanners over the character list of
the HTML string, `re.finditer` semantics: scanning is left to right,
matches are non-overlapping, and after a failed attempt at a position the
scan moves one character forward.
-/

open Json

/-- The character class `[A-Za-z0-9_-]`. -/
def isIdChar (c : Char) : Bool :=
  c.isAlpha || c.isDigit || c == '_' || c == '-'

/-- Embedding of `is_valid_item_id` (savee_scraper.py:261-266): the
placeholder tokens are rejected outright, then
`re.fullmatch(r"[A-Za-z0-9_-]{5,24}", item_id)` requires 5 to 24
characters, all from the class. -/
def is_valid_item_id (item_id : String) : Bool :=
  if item_id == "undefined" || item_id == "null" || item_id == "None"
      || item_id == "" then
    false
  else
    decide (5 ≤ item_id.length) && decide (item_id.length ≤ 24) &&
      item_id.data.all isIdChar

/-- `re.search(r"/i/([A-Za-z0-9_-]+)/?", url)`: the captured group of the
leftmost match — the maximal run of id characters after the leftmost
`/i/` that is followed by at least one id character. -/
def searchItemPath : List Char → Option (List Char)
  | [] => none
  | c :: rest =>
      match c, rest with
      | '/', 'i' :: '/' :: tail =>
          let run := tail.takeWhile isIdChar
          if run.isEmpty then searchItemPath rest else some run
      | _, _ => searchItemPath rest

/-- Embedding of `extract_item_id_from_url` (savee_scraper.py:269-274). -/
def extract_item_id_from_url (url : String) : Option String :=
  match searchItemPath url.data with
  | none => none
  | some run =>
      let item_id := String.mk run
      if is_valid_item_id item_id then some item_id else none

/-- `'` or `"`, the character class `['\"]`. -/
def isQuoteChar (c : Char) : Bool := c == '\'' || c == '"'

/-- The literal `grid-item-`. -/
def gridLit : List Char := ['g', 'r', 'i', 'd', '-', 'i', 't', 'e', 'm', '-']

/-- The scan loop of the `grid-item` regex, with explicit fuel.  Every
step consumes at least one character, so fuel equal to the input length
makes the fuel bound unreachable. -/
def scanGridIdsGo : Nat → List Char → List (List Char)
  | 0, _ => []
  | _, [] => []
  | fuel + 1, 'i' :: 'd' :: '=' :: q :: rest =>
      if isQuoteChar q && rest.take 10 == gridLit then
        if ((rest.drop 10).takeWhile isIdChar).isEmpty then
          scanGridIdsGo fuel ('d' :: '=' :: q :: rest)
        else
          match (rest.drop 10).drop ((rest.drop 10).takeWhile isIdChar).length with
          | q2 :: _ =>
              if isQuoteChar q2 then
                (rest.drop 10).takeWhile isIdChar ::
                  scanGridIdsGo fuel ((rest.drop 10).drop
                    (((rest.drop 10).takeWhile isIdChar).length + 1))
              else scanGridIdsGo fuel ('d' :: '=' :: q :: rest)
          | [] => scanGridIdsGo fuel ('d' :: '=' :: q :: rest)
      else scanGridIdsGo fuel ('d' :: '=' :: q :: rest)
  | fuel + 1, _ :: rest => scanGridIdsGo fuel rest

/-- `re.finditer(r"id=['\"]grid-item-([A-Za-z0-9_-]+)['\"]", html)`:
the captured groups, in order (savee_scraper.py:509).  Either quote
character may open and either may close. -/
def scanGridIds (l : List Char) : List (List Char) := scanGridIdsGo l.length l

/-- The scan loop of the `href` regex, with explicit fuel. -/
def scanHrefsGo : Nat → List Char → List (List Char)
  | 0, _ => []
  | _, [] => []
  | fuel + 1, 'h' :: 'r' :: 'e' :: 'f' :: '=' :: q :: '/' :: 'i' :: '/' :: tail =>
      if isQuoteChar q then
        if (tail.takeWhile isIdChar).isEmpty then
          scanHrefsGo fuel ('r' :: 'e' :: 'f' :: '=' :: q :: '/' :: 'i' :: '/' :: tail)
        else
          match ('/' :: 'i' :: '/' :: tail).drop
              (('/' :: 'i' :: '/' :: tail).takeWhile (fun c => c != q)).length with
          | q2 :: _ =>
              if q2 == q then
                ('/' :: 'i' :: '/' :: tail).takeWhile (fun c => c != q) ::
                  scanHrefsGo fuel (('/' :: 'i' :: '/' :: tail).drop
                    ((('/' :: 'i' :: '/' :: tail).takeWhile (fun c => c != q)).length + 1))
              else
                scanHrefsGo fuel
                  ('r' :: 'e' :: 'f' :: '=' :: q :: '/' :: 'i' :: '/' :: tail)
          | [] =>
              scanHrefsGo fuel ('r' :: 'e' :: 'f' :: '=' :: q :: '/' :: 'i' :: '/' :: tail)
      else scanHrefsGo fuel ('r' :: 'e' :: 'f' :: '=' :: q :: '/' :: 'i' :: '/' :: tail)
  | fuel + 1, 'h' :: 'r' :: 'e' :: 'f' :: '=' :: q :: rest =>
      scanHrefsGo fuel ('r' :: 'e' :: 'f' :: '=' :: q :: rest)
  | fuel + 1, _ :: rest => scanHrefsGo fuel rest

/-- `re.finditer(r"href=\"(/i/[A-Za-z0-9_-]+[^\"]*)\"|href='(/i/[A-Za-z0-9_-]+[^']*)'", html)`:
the captured relative URLs, in order (savee_scraper.py:516).  The group
runs from `/i/` — which must be followed by at least one id character —
up to the quote that opened the attribute. -/
def scanHrefs (l : List Char) : List (List Char) := scanHrefsGo l.length l

/-- The scan loop of the raw-text `/i/<id>` regex, with explicit fuel. -/
def scanRawIdsGo : Nat → List Char → List (List Char)
  | 0, _ => []
  | _, [] => []
  | fuel + 1, '/' :: 'i' :: '/' :: tail =>
      if (tail.takeWhile isIdChar).isEmpty then
        scanRawIdsGo fuel ('i' :: '/' :: tail)
      else
        tail.takeWhile isIdChar ::
          scanRawIdsGo fuel (tail.drop (tail.takeWhile isIdChar).length)
  | fuel + 1, _ :: rest => scanRawIdsGo fuel rest

/-- `re.finditer(r"/i/([A-Za-z0-9_-]+)", html)`: the captured groups, in
order (savee_scraper.py:524). -/
def scanRawIds (l : List Char) : List (List Char) := scanRawIdsGo l.length l

/-- A match of `re.search(r"NAME=['\"]([^'\"]+)['\"]", html)` attempted
at the current position: the literal `NAME=`, either quote, one or more
non-quote characters (the group), then either quote. -/
def tryAttrAt (lit : List Char) (l : List Char) : Option (List Char) :=
  if l.take lit.length == lit then
    match l.drop lit.length with
    | q :: rest =>
        if isQuoteChar q then
          let body := rest.takeWhile (fun c => !(isQuoteChar c))
          if body.isEmpty then none
          else
            match rest.drop body.length with
            | q2 :: _ => if isQuoteChar q2 then some body else none
            | [] => none
        else none
    | [] => none
  else none

/-- `re.search` semantics for `tryAttrAt`: the leftmost match wins. -/
def searchFirstAttr (lit : List Char) : List Char → Option (List Char)
  | [] => none
  | c :: rest =>
      match tryAttrAt lit (c :: rest) with
      | some body => some body
      | none => searchFirstAttr lit rest

/-- The numeric value of a hexadecimal digit. -/
def hexDigitVal (c : Char) : Option Nat :=
  if '0' ≤ c ∧ c ≤ '9' then some (c.toNat - '0'.toNat)
  else if 'a' ≤ c ∧ c ≤ 'f' then some (c.toNat - 'a'.toNat + 10)
  else if 'A' ≤ c ∧ c ≤ 'F' then some (c.toNat - 'A'.toNat + 10)
  else none

/-- The token stream of `urllib.parse.unquote`: each valid `%XX` escape
becomes a byte, an invalid escape stays literal. -/
def pctTokens : List Char → List (Char ⊕ Nat)
  | [] => []
  | '%' :: c1 :: c2 :: rest =>
      match hexDigitVal c1, hexDigitVal c2 with
      | some h1, some h2 => Sum.inr (16 * h1 + h2) :: pctTokens rest
      | _, _ => Sum.inl '%' :: pctTokens (c1 :: c2 :: rest)
  | c :: rest => Sum.inl c :: pctTokens rest

/-- The Unicode replacement character, for `errors="replace"`. -/
def replChar : Char := Char.ofNat 0xFFFD

/-- UTF-8 decoding of a byte run with replacement on malformed input
(well-formed sequences decode exactly; the replacement granularity of
malformed input is approximated). -/
def utf8DecodeGo : Nat → List Nat → List Char
  | 0, _ => []
  | _, [] => []
  | fuel + 1, b :: rest =>
      if b < 0x80 then Char.ofNat b :: utf8DecodeGo fuel rest
      else if 0xC2 ≤ b ∧ b ≤ 0xDF then
        match rest with
        | b2 :: rest2 =>
            if 0x80 ≤ b2 ∧ b2 ≤ 0xBF then
              Char.ofNat ((b - 0xC0) * 64 + (b2 - 0x80)) :: utf8DecodeGo fuel rest2
            else replChar :: utf8DecodeGo fuel rest
        | [] => [replChar]
      else if 0xE0 ≤ b ∧ b ≤ 0xEF then
        match rest with
        | b2 :: b3 :: rest3 =>
            if (0x80 ≤ b2 ∧ b2 ≤ 0xBF) ∧ (0x80 ≤ b3 ∧ b3 ≤ 0xBF) ∧
                (b ≠ 0xE0 ∨ 0xA0 ≤ b2) ∧ (b ≠ 0xED ∨ b2 ≤ 0x9F) then
              Char.ofNat ((b - 0xE0) * 4096 + (b2 - 0x80) * 64 + (b3 - 0x80)) ::
                utf8DecodeGo fuel rest3
            else replChar :: utf8DecodeGo fuel rest
        | _ => [replChar]
      else if 0xF0 ≤ b ∧ b ≤ 0xF4 then
        match rest with
        | b2 :: b3 :: b4 :: rest4 =>
            if (0x80 ≤ b2 ∧ b2 ≤ 0xBF) ∧ (0x80 ≤ b3 ∧ b3 ≤ 0xBF) ∧
                (0x80 ≤ b4 ∧ b4 ≤ 0xBF) ∧ (b ≠ 0xF0 ∨ 0x90 ≤ b2) ∧
                (b ≠ 0xF4 ∨ b2 ≤ 0x8F) then
              Char.ofNat ((b - 0xF0) * 262144 + (b2 - 0x80) * 4096 +
                  (b3 - 0x80) * 64 + (b4 - 0x80)) :: utf8DecodeGo fuel rest4
            else replChar :: utf8DecodeGo fuel rest
        | _ => [replChar]
      else replChar :: utf8DecodeGo fuel rest

/-- UTF-8 decoding of a byte run, fuel bounded by the run length. -/
def utf8Decode (l : List Nat) : List Char := utf8DecodeGo l.length l

/-- Whether an unquote token is a decoded byte. -/
def isByteTok (t : Char ⊕ Nat) : Bool :=
  match t with
  | Sum.inl _ => false
  | Sum.inr _ => true

/-- The byte of a byte token. -/
def byteOfTok (t : Char ⊕ Nat) : Option Nat :=
  match t with
  | Sum.inl _ => none
  | Sum.inr b => some b

/-- The reassembly loop over the token stream, with explicit fuel. -/
def decodeTokensGo : Nat → List (Char ⊕ Nat) → List Char
  | 0, _ => []
  | _, [] => []
  | fuel + 1, Sum.inl c :: rest => c :: decodeTokensGo fuel rest
  | fuel + 1, Sum.inr b :: rest =>
      utf8Decode (b :: (rest.takeWhile isByteTok).filterMap byteOfTok) ++
        decodeTokensGo fuel (rest.dropWhile isByteTok)

/-- Reassembling the token stream: maximal byte runs are UTF-8 decoded,
literal characters pass through. -/
def decodeTokens (ts : List (Char ⊕ Nat)) : List Char :=
  decodeTokensGo ts.length ts

/-- Embedding of `urllib.parse.unquote`. -/
def unquote (s : String) : String :=
  String.mk (decodeTokens (pctTokens s.data))

/-- JSON whitespace, as accepted by `json.loads`. -/
def isJsonWs (c : Char) : Bool :=
  c == ' ' || c == '\t' || c == '\n' || c == '\r'

/-- Dropping leading JSON whitespace. -/
def skipWs (l : List Char) : List Char := l.dropWhile isJsonWs

/-- The body of a JSON string after its opening quote: characters up to
the closing quote, with the escapes `json.loads` accepts; unescaped
control characters are rejected (strict mode).  Surrogate pairs combine;
an unpaired surrogate degenerates to `Char.ofNat`'s default. -/
def parseStringBodyGo : Nat → List Char → Option (List Char × List Char)
  | 0, _ => none
  | _, [] => none
  | fuel + 1,
      '\\' :: 'u' :: c1 :: c2 :: c3 :: c4 :: '\\' :: 'u' :: d1 :: d2 :: d3 :: d4 :: rest4 =>
      match hexDigitVal c1, hexDigitVal c2, hexDigitVal c3, hexDigitVal c4 with
      | some h1, some h2, some h3, some h4 =>
          if 0xD800 ≤ ((h1 * 16 + h2) * 16 + h3) * 16 + h4 ∧
              ((h1 * 16 + h2) * 16 + h3) * 16 + h4 ≤ 0xDBFF then
            match hexDigitVal d1, hexDigitVal d2, hexDigitVal d3, hexDigitVal d4 with
            | some g1, some g2, some g3, some g4 =>
                if 0xDC00 ≤ ((g1 * 16 + g2) * 16 + g3) * 16 + g4 ∧
                    ((g1 * 16 + g2) * 16 + g3) * 16 + g4 ≤ 0xDFFF then
                  (parseStringBodyGo fuel rest4).map (fun p =>
                    (Char.ofNat (0x10000 +
                        (((h1 * 16 + h2) * 16 + h3) * 16 + h4 - 0xD800) * 1024 +
                        (((g1 * 16 + g2) * 16 + g3) * 16 + g4 - 0xDC00)) :: p.1, p.2))
                else
                  (parseStringBodyGo fuel
                      ('\\' :: 'u' :: d1 :: d2 :: d3 :: d4 :: rest4)).map
                    (fun p =>
                      (Char.ofNat (((h1 * 16 + h2) * 16 + h3) * 16 + h4) :: p.1, p.2))
            | _, _, _, _ =>
                (parseStringBodyGo fuel
                    ('\\' :: 'u' :: d1 :: d2 :: d3 :: d4 :: rest4)).map
                  (fun p => (Char.ofNat (((h1 * 16 + h2) * 16 + h3) * 16 + h4) :: p.1, p.2))
          else
            (parseStringBodyGo fuel ('\\' :: 'u' :: d1 :: d2 :: d3 :: d4 :: rest4)).map
              (fun p => (Char.ofNat (((h1 * 16 + h2) * 16 + h3) * 16 + h4) :: p.1, p.2))
      | _, _, _, _ => none
  | fuel + 1, '\\' :: 'u' :: c1 :: c2 :: c3 :: c4 :: rest =>
      match hexDigitVal c1, hexDigitVal c2, hexDigitVal c3, hexDigitVal c4 with
      | some h1, some h2, some h3, some h4 =>
          (parseStringBodyGo fuel rest).map (fun p =>
            (Char.ofNat (((h1 * 16 + h2) * 16 + h3) * 16 + h4) :: p.1, p.2))
      | _, _, _, _ => none
  | fuel + 1, '\\' :: e :: rest =>
      match e with
      | '"' => (parseStringBodyGo fuel rest).map (fun p => ('"' :: p.1, p.2))
      | '\\' => (parseStringBodyGo fuel rest).map (fun p => ('\\' :: p.1, p.2))
      | '/' => (parseStringBodyGo fuel rest).map (fun p => ('/' :: p.1, p.2))
      | 'b' => (parseStringBodyGo fuel rest).map (fun p => (Char.ofNat 8 :: p.1, p.2))
      | 'f' => (parseStringBodyGo fuel rest).map (fun p => (Char.ofNat 12 :: p.1, p.2))
      | 'n' => (parseStringBodyGo fuel rest).map (fun p => ('\n' :: p.1, p.2))
      | 'r' => (parseStringBodyGo fuel rest).map (fun p => ('\r' :: p.1, p.2))
      | 't' => (parseStringBodyGo fuel rest).map (fun p => ('\t' :: p.1, p.2))
      | _ => none
  | fuel + 1, c :: rest =>
      if c == '"' then some ([], rest)
      else if c.toNat < 32 then none
      else (parseStringBodyGo fuel rest).map (fun p => (c :: p.1, p.2))

/-- The body of a JSON string, fuel bounded by the text length. -/
def parseStringBody (l : List Char) : Option (List Char × List Char) :=
  parseStringBodyGo l.length l

/-- One or more decimal digits, with the remainder. -/
def parseDigits (l : List Char) : Option (List Char × List Char) :=
  let ds := l.takeWhile Char.isDigit
  if ds.isEmpty then none else some (ds, l.drop ds.length)

/-- An unsigned JSON number lexeme:
`(0 | [1-9][0-9]*) (\.[0-9]+)? ([eE][+-]?[0-9]+)?`. -/
def parseUnsignedNum (l : List Char) : Option (List Char × List Char) :=
  match parseDigits l with
  | none => none
  | some (intPart, r1) =>
      if decide (1 < intPart.length) && (intPart.headD '0' == '0') then none
      else
        let fracRes :=
          match r1 with
          | '.' :: r2 =>
              match parseDigits r2 with
              | some (frac, r3) => some ('.' :: frac, r3)
              | none => none
          | _ => some ([], r1)
        match fracRes with
        | none => none
        | some (fracPart, r3) =>
            match r3 with
            | e :: r4 =>
                if e == 'e' || e == 'E' then
                  match r4 with
                  | s :: r5 =>
                      if s == '+' || s == '-' then
                        match parseDigits r5 with
                        | some (ex, r6) =>
                            some (intPart ++ fracPart ++ e :: s :: ex, r6)
                        | none => none
                      else
                        match parseDigits r4 with
                        | some (ex, r6) =>
                            some (intPart ++ fracPart ++ e :: ex, r6)
                        | none => none
                  | [] => none
                else some (intPart ++ fracPart, r3)
            | [] => some (intPart ++ fracPart, r3)

/-- A JSON number lexeme with an optional leading minus sign. -/
def parseNumLexeme (l : List Char) : Option (List Char × List Char) :=
  match l with
  | '-' :: rest =>
      match parseUnsignedNum rest with
      | some (lex, r) => some ('-' :: lex, r)
      | none => none
  | _ => parseUnsignedNum l

mutual

/-- A JSON value, `json.loads` grammar, with a fuel bound on nesting. -/
def parseVal (fuel : Nat) (l : List Char) : Option (JVal × List Char) :=
  match fuel with
  | 0 => none
  | fuel + 1 =>
      match skipWs l with
      | 'n' :: 'u' :: 'l' :: 'l' :: rest => some (JVal.jnull, rest)
      | 't' :: 'r' :: 'u' :: 'e' :: rest => some (JVal.jbool true, rest)
      | 'f' :: 'a' :: 'l' :: 's' :: 'e' :: rest => some (JVal.jbool false, rest)
      | 'N' :: 'a' :: 'N' :: rest => some (JVal.jnum "NaN", rest)
      | 'I' :: 'n' :: 'f' :: 'i' :: 'n' :: 'i' :: 't' :: 'y' :: rest =>
          some (JVal.jnum "Infinity", rest)
      | '-' :: 'I' :: 'n' :: 'f' :: 'i' :: 'n' :: 'i' :: 't' :: 'y' :: rest =>
          some (JVal.jnum "-Infinity", rest)
      | '"' :: rest =>
          (parseStringBody rest).map (fun p => (JVal.jstr (String.mk p.1), p.2))
      | '[' :: rest =>
          (match skipWs rest with
           | ']' :: rest2 => some (JVal.jarr [], rest2)
           | _ =>
              match parseElems fuel rest with
              | some (vs, rest2) => some (JVal.jarr vs, rest2)
              | none => none)
      | '{' :: rest =>
          (match skipWs rest with
           | '}' :: rest2 => some (JVal.jobj [], rest2)
           | _ =>
              match parseMembers fuel rest with
              | some (fs, rest2) => some (JVal.jobj fs, rest2)
              | none => none)
      | rest =>
          match parseNumLexeme rest with
          | some (lex, rest2) => some (JVal.jnum (String.mk lex), rest2)
          | none => none

/-- Comma-separated JSON array elements up to the closing bracket. -/
def parseElems (fuel : Nat) (l : List Char) : Option (List JVal × List Char) :=
  match fuel with
  | 0 => none
  | fuel + 1 =>
      match parseVal fuel l with
      | none => none
      | some (v, rest) =>
          match skipWs rest with
          | ',' :: rest2 =>
              match parseElems fuel rest2 with
              | some (vs, rest3) => some (v :: vs, rest3)
              | none => none
          | ']' :: rest2 => some ([v], rest2)
          | _ => none

/-- Comma-separated JSON object members up to the closing brace. -/
def parseMembers (fuel : Nat) (l : List Char) :
    Option (List (String × JVal) × List Char) :=
  match fuel with
  | 0 => none
  | fuel + 1 =>
      match skipWs l with
      | '"' :: rest =>
          match parseStringBody rest with
          | none => none
          | some (key, rest2) =>
              match skipWs rest2 with
              | ':' :: rest3 =>
                  match parseVal fuel rest3 with
                  | none => none
                  | some (v, rest4) =>
                      match skipWs rest4 with
                      | ',' :: rest5 =>
                          match parseMembers fuel rest5 with
                          | some (fs, rest6) =>
                              some ((String.mk key, v) :: fs, rest6)
                          | none => none
                      | '}' :: rest5 => some ([(String.mk key, v)], rest5)
                      | _ => none
              | _ => none
      | _ => none

end

/-- Embedding of `json.loads` on a string: a complete JSON document with
nothing but whitespace after it.  The fuel is an upper bound on nesting
depth, amply covered by the text length. -/
def jsonLoads (s : String) : Option JVal :=
  match parseVal (2 * s.length + 4) s.data with
  | some (v, rest) => if (skipWs rest).isEmpty then some v else none
  | none => none

/-- Embedding of `_parse_ids_from_data_attribute` (savee_scraper.py:459-472):
find the `data-savee-ids` attribute, percent-decode its value, parse the
JSON, and keep the valid string identifiers. -/
def parse_ids_from_data_attribute (html : String) : Option (List String) :=
  match searchFirstAttr ("data-savee-ids=".data) html.data with
  | none => none
  | some body =>
      match jsonLoads (unquote (String.mk body)) with
      | some (JVal.jarr xs) =>
          some (xs.filterMap (fun v =>
            match v with
            | JVal.jstr s => if is_valid_item_id s then some s else none
            | _ => none))
      | some _ => none
      | none => none

/-- Embedding of `_parse_links_from_data_attribute` (savee_scraper.py:444-456):
find the `data-savee-anchors` attribute, percent-decode its value, parse
the JSON, and keep the strings. -/
def parse_links_from_data_attribute (html : String) : Option (List String) :=
  match searchFirstAttr ("data-savee-anchors=".data) html.data with
  | none => none
  | some body =>
      match jsonLoads (unquote (String.mk body)) with
      | some (JVal.jarr xs) =>
          some (xs.filterMap (fun v =>
            match v with
            | JVal.jstr s => some s
            | _ => none))
      | some _ => none
      | none => none

/-- The `seen_ids`/`ordered_ids` accumulator of
`find_item_links_in_html`: ids are appended only when unseen. -/
def addId (st : List String × List String) (item_id : String) :
    List String × List String :=
  if item_id ∈ st.1 then st else (item_id :: st.1, st.2 ++ [item_id])

/-- Stage 1 loop (savee_scraper.py:496-499). -/
def stage1Fold (html : String) (st : List String × List String) :
    List String × List String :=
  ((parse_ids_from_data_attribute html).getD []).foldl
    (fun st item_id =>
      if is_valid_item_id item_id ∧ item_id ∉ st.1 then addId st item_id else st)
    st

/-- Stage 2 loop (savee_scraper.py:502-506). -/
def stage2Fold (html : String) (st : List String × List String) :
    List String × List String :=
  ((parse_links_from_data_attribute html).getD []).foldl
    (fun st href =>
      match extract_item_id_from_url href with
      | some maybe => if maybe ∉ st.1 then addId st maybe else st
      | none => st)
    st

/-- Stage 3 loop (savee_scraper.py:509-513). -/
def stage3Fold (html : String) (st : List String × List String) :
    List String × List String :=
  ((scanGridIds html.data).map String.mk).foldl
    (fun st item_id =>
      if is_valid_item_id item_id ∧ item_id ∉ st.1 then addId st item_id else st)
    st

/-- Stage 4 loop (savee_scraper.py:516-521). -/
def stage4Fold (html : String) (st : List String × List String) :
    List String × List String :=
  ((scanHrefs html.data).map String.mk).foldl
    (fun st rel =>
      match extract_item_id_from_url rel with
      | some maybe => if maybe ∉ st.1 then addId st maybe else st
      | none => st)
    st

/-- Stage 5 loop (savee_scraper.py:524-528). -/
def stage5Fold (html : String) (st : List String × List String) :
    List String × List String :=
  ((scanRawIds html.data).map String.mk).foldl
    (fun st item_id =>
      if is_valid_item_id item_id ∧ item_id ∉ st.1 then addId st item_id else st)
    st

/-- The `ordered_ids` list built by `find_item_links_in_html`
(savee_scraper.py:490-529): the five stages run in order over the shared
seen-set. -/
def ordered_item_ids (html : String) : List String :=
  (stage5Fold html (stage4Fold html (stage3Fold html
    (stage2Fold html (stage1Fold html ([], [])))))).2

/-- Embedding of `find_item_links_in_html` (savee_scraper.py:490-532).
`base_url` is a parameter of the source function that its body never
uses. -/
def find_item_links_in_html (html base_url item_base_url : String) : List String :=
  let _ := base_url
  (ordered_item_ids html).map
    (fun item_id => item_base_url ++ "/i/" ++ item_id ++ "/")

/-- Specification-side first-occurrence deduplication, excluding an
initial seen-set: keeps the first occurrence of each element, in order. -/
def dedupFirstFrom (seen : List String) : List String → List String
  | [] => []
  | x :: xs =>
      if x ∈ seen then dedupFirstFrom seen xs
      else x :: dedupFirstFrom (x :: seen) xs

/-- The stage-1 candidates after validity filtering, in document order. -/
def stage1Cands (html : String) : List String :=
  ((parse_ids_from_data_attribute html).getD []).filter is_valid_item_id

/-- The stage-2 candidates: ids extracted from the collected anchors. -/
def stage2Cands (html : String) : List String :=
  ((parse_links_from_data_attribute html).getD []).filterMap extract_item_id_from_url

/-- The stage-3 candidates: valid `grid-item-` DOM ids. -/
def stage3Cands (html : String) : List String :=
  (((scanGridIds html.data).map String.mk)).filter is_valid_item_id

/-- The stage-4 candidates: ids extracted from `href` attributes. -/
def stage4Cands (html : String) : List String :=
  (((scanHrefs html.data).map String.mk)).filterMap extract_item_id_from_url

/-- The stage-5 candidates: valid raw-text `/i/<id>` matches. -/
def stage5Cands (html : String) : List String :=
  (((scanRawIds html.data).map String.mk)).filter is_valid_item_id

/-- All candidates of all five stages, in the order the code visits
them. -/
def allStageCands (html : String) : List String :=
  stage1Cands html ++ stage2Cands html ++ stage3Cands html ++
    stage4Cands html ++ stage5Cands html

/-- The accumulate-unseen loop shared by the five stages, as a fold of
`addId` over an already-filtered candidate list. -/
def addLoop (st : List String × List String) (cands : List String) :
    List String × List String :=
  cands.foldl addId st

/-- Whether `needle` occurs in `hay` starting at position `i`. -/
def substrAt (needle hay : List Char) (i : Nat) : Bool :=
  (hay.drop i).take needle.length == needle

/-- The position of the first occurrence of `needle` in `hay`. -/
def firstSubstrIdx (needle hay : List Char) : Option Nat :=
  (List.range hay.length).find? (substrAt needle hay)

end SaveeScraper

namespace SeenStore

/-!
## Seen-set persistence (`saveescraper/savee_scraper.py:237-254`)

`load_seen_ids` reads `seen.json` and decodes it; `save_seen_ids` writes
`json.dumps(sorted(ids))` to a temp file and atomically renames it over
`seen.json`.  The file is modelled at the decoded level: `FileContent`
distinguishes a missing file, unparsable bytes, and a decoded JSON value.
-/

open Json

/-- The state of the checkpoint file as `load_seen_ids` can observe it. -/
inductive FileContent where
  /-- `path.exists()` is false. -/
  | absent
  /-- The file exists but `json.loads` raises on its text. -/
  | malformed (raw : String)
  /-- The file exists and `json.loads` decodes it to `v`. -/
  | wellFormed (v : JVal)

/-- The scalar views of all elements of a list, or `none` when some
element is unhashable. -/
def scalarsOf : List JVal → Option (List JScalar)
  | [] => some []
  | x :: xs =>
      match x.scalar?, scalarsOf xs with
      | some s, some rest => some (s :: rest)
      | _, _ => none

/-- Python `set(xs)` for a decoded JSON list `xs`: a `TypeError` (modelled
as `Except.error`) when some element is unhashable, else the set of
elements. -/
def pySetOfList (xs : List JVal) : Except Unit (Finset JScalar) :=
  match scalarsOf xs with
  | some ss => Except.ok ss.toFinset
  | none => Except.error ()

/-- Python `set(v)` for a decoded JSON value `v` (used for
`set(data["ids"])`): iterating a list collects its elements, iterating a
string collects its one-character substrings, iterating a dict collects
its keys; `null`, booleans and numbers are not iterable and raise
`TypeError`. -/
def pySetOfVal : JVal → Except Unit (Finset JScalar)
  | JVal.jarr xs => pySetOfList xs
  | JVal.jstr s =>
      Except.ok ((s.data.map (fun c => JScalar.sstr (String.mk [c]))).toFinset)
  | JVal.jobj fields =>
      Except.ok ((fields.map (fun kv => JScalar.sstr kv.1)).toFinset)
  | _ => Except.error ()

/-- Embedding of `load_seen_ids` (savee_scraper.py:237-248).  The
`try/except` catches both the `json.loads` failure and the `TypeError`
raised by `set(...)` on unhashable elements; every failure path falls
through to `return set()`. -/
def load_seen_ids : FileContent → Finset JScalar
  | FileContent.absent => ∅
  | FileContent.malformed _ => ∅
  | FileContent.wellFormed v =>
      match v with
      | JVal.jarr xs =>
          match pySetOfList xs with
          | Except.ok s => s
          | Except.error _ => ∅
      | JVal.jobj fields =>
          match objLookup fields "ids" with
          | some w =>
              match pySetOfVal w with
              | Except.ok s => s
              | Except.error _ => ∅
          | none => ∅
      | _ => ∅

/-- The JSON value serialized by `save_seen_ids` (savee_scraper.py:251-254):
`json.dumps(sorted(ids))`, the identifiers in ascending string order. -/
def save_value (ids : Finset String) : JVal :=
  JVal.jarr ((ids.sort (· ≤ ·)).map JVal.jstr)

/-- The checkpoint file after a completed `save_seen_ids`. -/
def save_file (ids : Finset String) : FileContent :=
  FileContent.wellFormed (save_value ids)

end SeenStore

namespace RunCycle

/-!
## One crawl cycle over the seen-set (`savee_scraper.py:746-822`)

`run_cycle` loads the persisted seen-set, iterates over the discovered
item links, processes each unseen valid item, adds it to the in-memory
seen-set, flushes the set with `save_seen_ids` whenever
`processed_count % 5 == 0`, and flushes once more after the loop.

The model instruments the loop with a trace of snapshots — one after each
successfully processed item and one after each filesystem micro-operation
of `save_seen_ids` — so that every crash point of the cycle corresponds
to a prefix of the trace.  File contents appear in decoded form (the
`SeenStore` theorems below show the JSON serialization round-trips).
-/

/-- The filesystem state a crash can expose: the decoded contents of
`seen.json` and of the temporary file written by `save_seen_ids`.  The
`main` slot changes only at the atomic rename. -/
structure FsState where
  main : Finset String
  tmp : Option (Finset String)
  deriving DecidableEq

instance : Inhabited FsState := ⟨⟨∅, none⟩⟩

/-- `save_seen_ids` (savee_scraper.py:251-254) as its two micro-steps:
write the full serialized set to the temp file, then rename the temp file
over `seen.json`.  Both intermediate states are returned so that a crash
between the two steps is representable: after the write, `main` still
holds its previous complete contents. -/
def save_seen_ids (fs : FsState) (ids : Finset String) : FsState × FsState :=
  let afterWrite : FsState := { fs with tmp := some ids }
  let afterRename : FsState := { main := ids, tmp := none }
  (afterWrite, afterRename)

/-- The in-memory state of the `run_cycle` processing loop, with the list
of identifiers successfully processed this cycle kept alongside the
code's `processed_count` counter. -/
structure LoopState where
  fs : FsState
  seen : Finset String
  processedCount : Nat
  processedIds : List String

/-- A crash-point snapshot: the filesystem state together with the
identifiers that had been fully processed at that moment. -/
structure Snap where
  fs : FsState
  processedIds : List String
  deriving DecidableEq

instance : Inhabited Snap := ⟨⟨default, []⟩⟩

/-- The snapshot exposing a loop state. -/
def snapOf (st : LoopState) : Snap := ⟨st.fs, st.processedIds⟩

/-- The identifiers processed in this cycle that are not yet in the
persisted seen-set — exactly the items a restart would reprocess. -/
def unflushed (s : Snap) : List String :=
  s.processedIds.filter (fun x => x ∉ s.fs.main)

/-- The body of the `for href in links` loop (savee_scraper.py:808-819).
Each link comes with the outcome `process_item` would have for it
(`true` = returns the item id, `false` = returns `None`).  Emits the
crash-point snapshots produced while handling the link. -/
def runLinks (maxItems : Nat) : List (String × Bool) → LoopState → LoopState × List Snap
  | [], st => (st, [])
  | (href, ok) :: rest, st =>
      if st.processedCount ≥ maxItems then (st, [])
      else
        match SaveeScraper.extract_item_id_from_url href with
        | none => runLinks maxItems rest st
        | some item_id =>
            if item_id ∈ st.seen then runLinks maxItems rest st
            else if ok then
              let seen := insert item_id st.seen
              let count := st.processedCount + 1
              let processed := st.processedIds ++ [item_id]
              if count % 5 == 0 then
                let saved := save_seen_ids st.fs seen
                let st1 : LoopState :=
                  { fs := saved.2, seen := seen, processedCount := count,
                    processedIds := processed }
                let r := runLinks maxItems rest st1
                (r.1, Snap.mk st.fs processed :: Snap.mk saved.1 processed ::
                  Snap.mk saved.2 processed :: r.2)
              else
                let st1 : LoopState :=
                  { fs := st.fs, seen := seen, processedCount := count,
                    processedIds := processed }
                let r := runLinks maxItems rest st1
                (r.1, Snap.mk st.fs processed :: r.2)
            else runLinks maxItems rest st

/-- Persisted-set monotonicity between two snapshots: the decoded
contents of `seen.json` only ever grow. -/
def persistMono (a b : Snap) : Prop := a.fs.main ⊆ b.fs.main

/-- The processing-loop invariant: the persisted set is contained in the
in-memory seen-set, every processed id is in the seen-set, the counter
counts the processed ids, and the ids processed since the last flush
number `processedCount % 5`. -/
def Inv (st : LoopState) : Prop :=
  st.fs.main ⊆ st.seen ∧
  (∀ x ∈ st.processedIds, x ∈ st.seen) ∧
  st.processedCount = st.processedIds.length ∧
  (unflushed (snapOf st)).length = st.processedCount % 5

/-- Embedding of one `run_cycle` over an already-rendered list of links
(savee_scraper.py:746-822).  `existingDirs` are the item directories the
`skip_existing` branch adds to the initial seen-set.  Returns the final
loop state and the full list of crash-point snapshots, starting with the
state before the loop and ending with the two micro-states of the final
`save_seen_ids`. -/
def run_cycle (fs0 : FsState) (existingDirs : Finset String)
    (links : List (String × Bool)) (maxItems : Nat) : LoopState × List Snap :=
  let seen0 := fs0.main ∪ existingDirs
  let st0 : LoopState := ⟨fs0, seen0, 0, []⟩
  let r := runLinks maxItems links st0
  let saved := save_seen_ids r.1.fs r.1.seen
  let stFinal : LoopState := { r.1 with fs := saved.2 }
  (stFinal,
    snapOf st0 :: r.2 ++
      [snapOf r.1, Snap.mk saved.1 r.1.processedIds, Snap.mk saved.2 r.1.processedIds])

end RunCycle

namespace R2

/-!
## R2 media store (`apps/worker/app/storage/r2.py`)

The object store is a list of objects plus a log of the performed
`put_object` calls.  External effects enter as function arguments:
`hexdigest` models `hashlib.sha256(data).hexdigest()` on the downloaded
bytes, `fetch` models a successful `download_url`, `decodeOk` models
whether `PIL.Image.open`/`convert` succeeds on the bytes, and `thumbJpeg`
models PIL resize + quality-85 JPEG encoding for a bounding box.  Bytes
are lists of naturals.
-/

/-- One stored object. -/
structure R2Object where
  key : String
  body : List Nat
  contentType : String
  deriving Repr, DecidableEq

/-- The bucket contents and the ordered log of `put_object` keys. -/
structure R2State where
  objects : List R2Object
  putLog : List String
  deriving Repr, DecidableEq

/-- Embedding of `object_exists` (r2.py:60-68): `head_object` by key. -/
def object_exists (st : R2State) (key : String) : Bool :=
  st.objects.any (fun o => o.key == key)

/-- Python `s.endswith(suffix)`, at the character level. -/
def strEndsWith (s suffix : String) : Bool := suffix.data.isSuffixOf s.data

/-- Python `s.lower()`, at the character level. -/
def strToLower (s : String) : String := String.mk (s.data.map Char.toLower)

/-- Python `s[:n]`, at the character level. -/
def strTake (s : String) (n : Nat) : String := String.mk (s.data.take n)

/-- `mimetypes.guess_type(key)[0] or 'application/octet-stream'`, for the
extensions this system produces. -/
def guessContentType (key : String) : String :=
  if strEndsWith key ".jpg" || strEndsWith key ".jpeg" then "image/jpeg"
  else if strEndsWith key ".png" then "image/png"
  else if strEndsWith key ".gif" then "image/gif"
  else if strEndsWith key ".webp" then "image/webp"
  else if strEndsWith key ".mp4" then "video/mp4"
  else if strEndsWith key ".webm" then "video/webm"
  else "application/octet-stream"

/-- Embedding of `upload_file` (r2.py:70-94): head-check first, and only
when the key is absent perform the `put_object` (recorded in the log). -/
def upload_file (st : R2State) (file_data : List Nat) (key : String)
    (content_type : Option String) : R2State × String :=
  let ct := content_type.getD (guessContentType key)
  if object_exists st key then (st, key)
  else
    ({ objects := st.objects ++ [⟨key, file_data, ct⟩],
       putLog := st.putLog ++ [key] }, key)

/-- The path component of `urllib.parse.urlparse`, for the absolute URLs
this system fetches: strip a `scheme:` prefix, strip a `//netloc`, keep
everything before `?` or `#`. -/
def isSchemeChar (c : Char) : Bool :=
  c.isAlpha || c.isDigit || c == '+' || c == '-' || c == '.'

/-- Strip a valid `scheme:` prefix. -/
def splitScheme (l : List Char) : List Char :=
  let front := l.takeWhile (fun c => c != ':')
  if front.length < l.length && !front.isEmpty &&
      (front.headD ' ').isAlpha && front.all isSchemeChar then
    l.drop (front.length + 1)
  else l

/-- Strip a `//netloc` prefix. -/
def dropNetloc (l : List Char) : List Char :=
  match l with
  | '/' :: '/' :: rest =>
      rest.dropWhile (fun c => !(c == '/' || c == '?' || c == '#'))
  | _ => l

/-- `urlparse(url).path`. -/
def urlparsePath (url : String) : String :=
  String.mk ((dropNetloc (splitScheme url.data)).takeWhile
    (fun c => !(c == '?' || c == '#')))

/-- Embedding of `_get_file_extension` (r2.py:182-200): suffix match on
the lower-cased URL path, `'.jpg'` as the default for everything else. -/
def _get_file_extension (url : String) : String :=
  let path := strToLower (urlparsePath url)
  if strEndsWith path ".jpg" || strEndsWith path ".jpeg" then ".jpg"
  else if strEndsWith path ".png" then ".png"
  else if strEndsWith path ".gif" then ".gif"
  else if strEndsWith path ".webp" then ".webp"
  else if strEndsWith path ".mp4" then ".mp4"
  else if strEndsWith path ".webm" then ".webm"
  else ".jpg"

/-- A lower-case hexadecimal digit, the alphabet of `hexdigest()`. -/
def isHexChar (c : Char) : Bool := c.isDigit || ('a' ≤ c && c ≤ 'f')

/-- The four derived resolutions of `_generate_thumbnails` (r2.py:149-154). -/
def thumbnailSizes : List (String × Nat × Nat) :=
  [("thumb", 150, 150), ("small", 300, 300), ("medium", 600, 600),
    ("large", 1200, 1200)]

/-- Embedding of `_generate_thumbnails` (r2.py:147-180): when the image
decodes, each size is encoded and uploaded under
`{base_key}/{size}_{hash}.jpg`; decode failures are swallowed.  The `ext`
argument is received but unused by the source function. -/
def _generate_thumbnails (decodeOk : List Nat → Bool)
    (thumbJpeg : List Nat → Nat → Nat → List Nat) (st : R2State)
    (image_data : List Nat) (base_key content_hash ext : String) : R2State :=
  let _ := ext
  if decodeOk image_data then
    thumbnailSizes.foldl
      (fun st sz =>
        (upload_file st (thumbJpeg image_data sz.2.1 sz.2.2)
          (base_key ++ "/" ++ sz.1 ++ "_" ++ content_hash ++ ".jpg")
          (some "image/jpeg")).1)
      st
  else st

/-- Embedding of `upload_image` (r2.py:104-125): download, hash, upload
the original under `{base_key}/original_{hash}{ext}`, generate
thumbnails, return the original key. -/
def upload_image (hexdigest : List Nat → String) (fetch : String → List Nat)
    (decodeOk : List Nat → Bool) (thumbJpeg : List Nat → Nat → Nat → List Nat)
    (st : R2State) (image_url base_key : String) : R2State × String :=
  let image_data := fetch image_url
  let content_hash := strTake (hexdigest image_data) 16
  let ext := _get_file_extension image_url
  let original_key := base_key ++ "/original_" ++ content_hash ++ ext
  let st1 := (upload_file st image_data original_key none).1
  let st2 := _generate_thumbnails decodeOk thumbJpeg st1 image_data base_key
    content_hash ext
  (st2, original_key)

/-- Embedding of `upload_video` (r2.py:127-145): download, hash, upload
under `{base_key}/video_{hash}{ext}` with content type `video/mp4`. -/
def upload_video (hexdigest : List Nat → String) (fetch : String → List Nat)
    (st : R2State) (video_url base_key : String) : R2State × String :=
  let video_data := fetch video_url
  let content_hash := strTake (hexdigest video_data) 16
  let ext := _get_file_extension video_url
  let video_key := base_key ++ "/video_" ++ content_hash ++ ext
  ((upload_file st video_data video_key (some "video/mp4")).1, video_key)

end R2

namespace BlocksDb

/-!
## Blocks persistence (`apps/worker/app/database/blocks.py`,
`apps/worker/app/queue/consumers.py`)

The relational store is a list of `core.blocks` rows and a list of
`cms.blocks_overrides` rows; `uq_core_blocks_source_external` makes
`(source_id, external_id)` the conflict target of the upsert.  UUIDs are
modelled as naturals drawn from a counter, `current_timestamp` as the
`now` field of the store.
-/

/-- The `sidebar_info` JSONB payload as the upsert consumes it:
`tags`/`aiTags` (absent keys behave like empty lists) plus the remaining
fields, stored wholesale. -/
structure SidebarInfo where
  tags : List String
  aiTags : List String
  rest : List (String × Json.JVal)

instance : Inhabited SidebarInfo := ⟨⟨[], [], []⟩⟩

/-- `ParsedItem`, reconstructed from its use sites in
`upsert_block_from_parsed_item` (blocks.py:27-120); the class is imported
from `app.scraper.savee` but not defined in the tree — its fields
coincide with `ItemMeta` of `saveescraper/savee_scraper.py` plus
`sidebar_info`. -/
structure ParsedItem where
  item_id : String
  page_url : String
  og_title : Option String
  og_description : Option String
  og_image_url : Option String
  og_url : Option String
  media_type : String
  source_api_url : Option String
  source_original_url : Option String
  sidebar_info : Option SidebarInfo

/-- One `core.blocks` row. -/
structure BlockRow where
  id : Nat
  source_id : Nat
  external_id : String
  title_raw : Option String
  description_raw : Option String
  tags_raw : List String
  media_key : String
  media_type : String
  video_poster_key : Option String
  url : String
  source_api_url : Option String
  source_original_url : Option String
  sidebar_info : SidebarInfo
  og_title : Option String
  og_description : Option String
  og_image_url : Option String
  og_url : Option String
  created_at : Nat
  updated_at : Nat

instance : Inhabited BlockRow :=
  ⟨⟨0, 0, "", none, none, [], "", "", none, "", none, none, default, none,
    none, none, none, 0, 0⟩⟩

/-- One `cms.blocks_overrides` row. -/
structure OverrideRow where
  block_id : Nat
  title_override : Option String
  description_override : Option String
  tags_override : Option (List String)
  status : String
  locked : Bool
  priority : Int
  notes : Option String
  deriving Repr, DecidableEq

/-- The relational store. -/
structure Db where
  blocks : List BlockRow
  overrides : List OverrideRow
  nextId : Nat
  now : Nat

/-- The `media_keys` dict argument of the upsert. -/
structure MediaKeys where
  image : Option String
  video : Option String
  poster : Option String

/-- The `uq_core_blocks_source_external` key predicate. -/
def keyMatches (source_id : Nat) (external_id : String) (r : BlockRow) : Bool :=
  r.source_id == source_id && r.external_id == external_id

/-- Python `a or b` on optional strings: `None` and `''` are falsy. -/
def pyOrStr (a b : Option String) : Option String :=
  match a with
  | some s => if s == "" then b else some s
  | none => b

/-- Python `list(set(xs))` on strings.  CPython leaves the order of this
list unspecified; the model fixes first-occurrence order — no theorem
below depends on the order of `tags_raw`. -/
def listSet (l : List String) : List String :=
  l.foldl (fun acc x => if x ∈ acc then acc else acc ++ [x]) []

/-- Python `s.strip()`, at the character level (ASCII whitespace). -/
def pyStrip (s : String) : String :=
  String.mk (((s.data.dropWhile Char.isWhitespace).reverse.dropWhile
    Char.isWhitespace).reverse)

/-- The `tags_raw` computation of the upsert (blocks.py:47-54):
sidebar `tags` and `aiTags` concatenated, stripped, blanks dropped,
de-duplicated. -/
def tagsRawOf (item : ParsedItem) : List String :=
  let tags := (item.sidebar_info.map (fun s => s.tags)).getD [] ++
    (item.sidebar_info.map (fun s => s.aiTags)).getD []
  listSet (tags.filterMap (fun tag =>
    if pyStrip tag == "" then none else some (pyStrip tag)))

/-- The column values of the upsert's `SET` clause (blocks.py:70-110),
shared by the insert and the conflict update. -/
structure UpsertFields where
  title_raw : Option String
  description_raw : Option String
  tags_raw : List String
  media_key : String
  media_type : String
  video_poster_key : Option String
  url : String
  source_api_url : Option String
  source_original_url : Option String
  sidebar_info : SidebarInfo
  og_title : Option String
  og_description : Option String
  og_image_url : Option String
  og_url : Option String

/-- The raw-field projection of a row, for comparing against a call's
`UpsertFields`. -/
def BlockRow.rawFields (r : BlockRow) : UpsertFields :=
  ⟨r.title_raw, r.description_raw, r.tags_raw, r.media_key, r.media_type,
    r.video_poster_key, r.url, r.source_api_url, r.source_original_url,
    r.sidebar_info, r.og_title, r.og_description, r.og_image_url, r.og_url⟩

/-- The `UpsertFields` computed by `upsert_block_from_parsed_item` for a
call, after the media-key checks succeeded. -/
def upsertFieldsOf (item : ParsedItem) (primary : String) (poster : Option String) :
    UpsertFields :=
  { title_raw := item.og_title
    description_raw := item.og_description
    tags_raw := tagsRawOf item
    media_key := primary
    media_type := item.media_type
    video_poster_key := poster
    url := item.page_url
    source_api_url := item.source_api_url
    source_original_url := item.source_original_url
    sidebar_info := item.sidebar_info.getD default
    og_title := item.og_title
    og_description := item.og_description
    og_image_url := item.og_image_url
    og_url := item.og_url }

/-- Overwriting a row's raw fields, the upsert's `DO UPDATE SET` list
(blocks.py:94-110): `id`, `source_id`, `external_id` and `created_at`
are untouched, `updated_at` becomes `current_timestamp`. -/
def applyFields (r : BlockRow) (f : UpsertFields) (now : Nat) : BlockRow :=
  { r with
      title_raw := f.title_raw
      description_raw := f.description_raw
      tags_raw := f.tags_raw
      media_key := f.media_key
      media_type := f.media_type
      video_poster_key := f.video_poster_key
      url := f.url
      source_api_url := f.source_api_url
      source_original_url := f.source_original_url
      sidebar_info := f.sidebar_info
      og_title := f.og_title
      og_description := f.og_description
      og_image_url := f.og_image_url
      og_url := f.og_url
      updated_at := now }

/-- The `DO UPDATE` half of the conflict-resolving statement: overwrite
the raw fields of the first row holding the key, `none` when no row
conflicts. -/
def updateConflicting (source_id : Nat) (external_id : String)
    (f : UpsertFields) (now : Nat) :
    List BlockRow → Option (List BlockRow × BlockRow)
  | [] => none
  | r :: rs =>
      if keyMatches source_id external_id r then
        some (applyFields r f now :: rs, applyFields r f now)
      else
        match updateConflicting source_id external_id f now rs with
        | some (rs2, row) => some (r :: rs2, row)
        | none => none

/-- `INSERT ... ON CONFLICT ON CONSTRAINT uq_core_blocks_source_external
DO UPDATE SET ... RETURNING *`: update the row holding the key if one
exists, insert otherwise. -/
def upsertStatement (db : Db) (source_id : Nat) (external_id : String)
    (f : UpsertFields) : Db × BlockRow :=
  match updateConflicting source_id external_id f db.now db.blocks with
  | some (blocks2, row) => ({ db with blocks := blocks2 }, row)
  | none =>
      let newRow : BlockRow :=
        { id := db.nextId
          source_id := source_id
          external_id := external_id
          title_raw := f.title_raw
          description_raw := f.description_raw
          tags_raw := f.tags_raw
          media_key := f.media_key
          media_type := f.media_type
          video_poster_key := f.video_poster_key
          url := f.url
          source_api_url := f.source_api_url
          source_original_url := f.source_original_url
          sidebar_info := f.sidebar_info
          og_title := f.og_title
          og_description := f.og_description
          og_image_url := f.og_image_url
          og_url := f.og_url
          created_at := db.now
          updated_at := db.now }
      ({ db with blocks := db.blocks ++ [newRow], nextId := db.nextId + 1 }, newRow)

/-- The primary media key an upsert call would pick (blocks.py:56-64). -/
def callPrimary (c : ParsedItem × MediaKeys) : Option String :=
  if c.1.media_type == "video" then pyOrStr c.2.video c.2.image else c.2.image

/-- The poster key an upsert call would pick (blocks.py:60-62). -/
def callPoster (c : ParsedItem × MediaKeys) : Option String :=
  if c.1.media_type == "video" then pyOrStr c.2.poster c.2.image else none

/-- The `UpsertFields` an upsert call would write. -/
def callFields (c : ParsedItem × MediaKeys) : UpsertFields :=
  upsertFieldsOf c.1 ((callPrimary c).getD "") (callPoster c)

/-- Embedding of `BlocksRepository.upsert_block_from_parsed_item`
(blocks.py:27-120): compute `tags_raw`, pick the primary media key and
the poster key (`ValueError` when no truthy primary key exists), then run
the conflict-resolving statement. -/
def upsert_block_from_parsed_item (db : Db) (item : ParsedItem)
    (source_id : Nat) (media_keys : MediaKeys) : Except String (Db × BlockRow) :=
  let primary := callPrimary (item, media_keys)
  let poster := callPoster (item, media_keys)
  match primary with
  | none =>
      Except.error ("No primary media key available for item " ++ item.item_id)
  | some pk =>
      if pk == "" then
        Except.error ("No primary media key available for item " ++ item.item_id)
      else Except.ok (upsertStatement db source_id item.item_id
        (upsertFieldsOf item pk poster))

/-- Whether a call would pass the upsert's primary-media-key check. -/
def hasPrimaryKey (item : ParsedItem) (media_keys : MediaKeys) : Bool :=
  match callPrimary (item, media_keys) with
  | none => false
  | some pk => !(pk == "")

/-- A sequence of upsert calls, stopping at the first `ValueError`. -/
def upsertCalls (db : Db) (source_id : Nat) :
    List (ParsedItem × MediaKeys) → Except String Db
  | [] => Except.ok db
  | (item, mk) :: rest =>
      match upsert_block_from_parsed_item db item source_id mk with
      | Except.ok (db2, _) => upsertCalls db2 source_id rest
      | Except.error e => Except.error e

/-- `ScrapedItem` (`apps/worker/app/scraper/core.py:21-35`), the fields
the item consumer reads. -/
structure ScrapedItem where
  external_id : String
  title : Option String
  description : Option String
  media_type : String
  media_url : String
  thumbnail_url : Option String
  source_url : String
  tags : List String

/-- Embedding of `ItemConsumer.process_message` (consumers.py:210-286)
after the job body has been decoded and `_scrape_item` has produced
`scraped` (`none` models a failed scrape, raising `ValueError`).  When a
block row for `(source_id, external_id)` already exists the item is
skipped with no writes; otherwise media is uploaded and a fresh row is
inserted with the scraped values. -/
def ItemConsumer_process_message (hexdigest : List Nat → String)
    (fetch : String → List Nat) (decodeOk : List Nat → Bool)
    (thumbJpeg : List Nat → Nat → Nat → List Nat) (db : Db) (st : R2.R2State)
    (source_id : Nat) (scraped : Option ScrapedItem) :
    Except String (Db × R2.R2State) :=
  match scraped with
  | none => Except.error "Failed to scrape item"
  | some item =>
      if db.blocks.any (fun r => keyMatches source_id item.external_id r) then
        Except.ok (db, st)
      else
        let uploaded :=
          if item.media_type == "image" then
            let r := R2.upload_image hexdigest fetch decodeOk thumbJpeg st
              item.media_url ("blocks/" ++ item.external_id)
            (r.1, some r.2, (none : Option String))
          else if item.media_type == "video" then
            let r := R2.upload_video hexdigest fetch st item.media_url
              ("blocks/" ++ item.external_id)
            match item.thumbnail_url with
            | some turl =>
                if turl == "" then (r.1, some r.2, none)
                else
                  let rp := R2.upload_image hexdigest fetch decodeOk thumbJpeg r.1
                    turl ("blocks/" ++ item.external_id)
                  (rp.1, some r.2, some rp.2)
            | none => (r.1, some r.2, none)
          else (st, none, none)
        let block : BlockRow :=
          { id := db.nextId
            source_id := source_id
            external_id := item.external_id
            title_raw := item.title
            description_raw := item.description
            tags_raw := item.tags
            media_key := uploaded.2.1.getD ""
            media_type := item.media_type
            video_poster_key := uploaded.2.2
            url := item.source_url
            source_api_url := none
            source_original_url := some item.media_url
            sidebar_info := default
            og_title := none
            og_description := none
            og_image_url := none
            og_url := none
            created_at := db.now
            updated_at := db.now }
        Except.ok
          ({ db with blocks := db.blocks ++ [block], nextId := db.nextId + 1 },
            uploaded.1)

end BlocksDb

/-- C1. The claim says each failure increments `retry_count` in the
re-queued job data, so the message reaches the DLQ exactly after
`max_retries` failures.  In the code the incremented `retry_count` lives
only in a local dict that is never republished: `nack(requeue=True)`
requeues the original body, so any message whose body starts with
`retry_count < max_retries` is redelivered with that same body after every
failure and never reaches the dead-letter branch, no matter how many times
it fails. -/
theorem C1_retry_count_never_advances (body : Consumers.JobData)
    (error now : String) (n : Nat)
    (h : body.retry_count < body.max_retries) :
    Consumers.failure_iter error now n (Consumers.MsgState.queued body) =
      Consumers.MsgState.queued body := by
  induction n with
  | zero => rfl
  | succ n ih =>
      have hstep : Consumers.failure_step error now (Consumers.MsgState.queued body) =
          Consumers.MsgState.queued body := by
        simp [Consumers.failure_step, Consumers.handle_message_error, h]
      simpa [Consumers.failure_iter, hstep] using ih

/-- Witness for C1: a freshly produced item job (`retry_count = 0`,
`max_retries = 5`) that fails 100 consecutive times is still sitting in the
main queue with its original body. -/
theorem C1_retry_count_never_advances_witness :
    (Consumers.producerItemJob "j1").retry_count <
        (Consumers.producerItemJob "j1").max_retries ∧
      Consumers.failure_iter "boom" "t0" 100
          (Consumers.MsgState.queued (Consumers.producerItemJob "j1")) =
        Consumers.MsgState.queued (Consumers.producerItemJob "j1") :=
  ⟨by decide, C1_retry_count_never_advances _ "boom" "t0" 100 (by decide)⟩

/-- Helper: the scalar views of a list of JSON strings. -/
theorem scalarsOf_map_jstr (l : List String) :
    SeenStore.scalarsOf (l.map Json.JVal.jstr) = some (l.map Json.JScalar.sstr) := by
  induction l with
  | nil => rfl
  | cons x xs ih => simp [SeenStore.scalarsOf, Json.JVal.scalar?, ih]

/-- Helper: `toFinset` commutes with `map`. -/
theorem toFinset_listMap {α β : Type} [DecidableEq α] [DecidableEq β]
    (f : α → β) (l : List α) : (l.map f).toFinset = l.toFinset.image f := by
  induction l with
  | nil => simp
  | cons x xs ih => simp [ih]

/-- C9. Saving a seen-set and loading it back returns exactly that set of
identifiers (as the string scalars of the decoded JSON), and the
persisted file is a JSON array holding the identifiers as a sorted,
duplicate-free list — the canonical serialization of the set. -/
theorem C9_seen_set_roundtrip_sorted (s : Finset String) :
    SeenStore.load_seen_ids (SeenStore.save_file s) =
        s.image Json.JScalar.sstr ∧
      ∃ l : List String,
        SeenStore.save_value s = Json.JVal.jarr (l.map Json.JVal.jstr) ∧
          l.Sorted (· ≤ ·) ∧ l.Nodup ∧ l.toFinset = s := by
  constructor
  · simp only [SeenStore.save_file, SeenStore.save_value, SeenStore.load_seen_ids,
      SeenStore.pySetOfList, scalarsOf_map_jstr]
    rw [toFinset_listMap, Finset.sort_toFinset]
  · exact ⟨s.sort (· ≤ ·), rfl, Finset.sort_sorted _ _, Finset.sort_nodup _ _,
      Finset.sort_toFinset _ _⟩

/-- C10. `load_seen_ids` is total: a missing file, unparsable bytes, and
a decoded value that is neither a list nor a dict with an `"ids"` key all
yield the empty set instead of an exception. -/
theorem C10_load_seen_ids_total_on_bad :
    SeenStore.load_seen_ids SeenStore.FileContent.absent = ∅ ∧
      (∀ raw : String,
        SeenStore.load_seen_ids (SeenStore.FileContent.malformed raw) = ∅) ∧
      ∀ v : Json.JVal, v.isArr = false → v.hasIdsKey = false →
        SeenStore.load_seen_ids (SeenStore.FileContent.wellFormed v) = ∅ := by
  refine ⟨rfl, fun _ => rfl, ?_⟩
  intro v h1 h2
  cases v with
  | jnull => rfl
  | jbool b => rfl
  | jnum lexeme => rfl
  | jstr s => rfl
  | jarr xs => simp [Json.JVal.isArr] at h1
  | jobj fields =>
      rcases hob : Json.objLookup fields "ids" with _ | w
      · simp [SeenStore.load_seen_ids, hob]
      · simp [Json.JVal.hasIdsKey, hob] at h2

/-- Witness for C10: a corrupted file and a bare JSON number both load as
the empty set. -/
theorem C10_load_seen_ids_total_on_bad_witness :
    SeenStore.load_seen_ids (SeenStore.FileContent.malformed "not json") = ∅ ∧
      SeenStore.load_seen_ids
          (SeenStore.FileContent.wellFormed (Json.JVal.jnum "3")) = ∅ :=
  ⟨C10_load_seen_ids_total_on_bad.2.1 "not json",
    C10_load_seen_ids_total_on_bad.2.2 (Json.JVal.jnum "3") rfl rfl⟩

/-- Helper: `_get_file_extension` always returns one of the six known
extensions; in particular the fallback for an unrecognised suffix is
`.jpg` for videos as well as images. -/
theorem get_file_extension_mem (url : String) :
    R2._get_file_extension url ∈
      [".jpg", ".png", ".gif", ".webp", ".mp4", ".webm"] := by
  unfold R2._get_file_extension
  dsimp only
  split_ifs <;> simp

/-- C8 counterexample: for a video whose source URL has no recognised
suffix, `_get_file_extension` returns `.jpg` — not the `.mp4` fallback
the claim states — and the video object key therefore ends in `.jpg`.
(The digest argument stands in for `hashlib.sha256(...).hexdigest()`;
the key's extension does not depend on it.) -/
theorem C8_video_fallback_counterexample :
    R2._get_file_extension "https://cdn.example.com/media/clip" = ".jpg" ∧
      (R2.upload_video (fun _ => String.mk (List.replicate 64 'a'))
          (fun _ => [1, 2]) ⟨[], []⟩ "https://cdn.example.com/media/clip"
          "blocks/x").2 = "blocks/x/video_aaaaaaaaaaaaaaaa.jpg" ∧
      R2.strEndsWith "blocks/x/video_aaaaaaaaaaaaaaaa.jpg" ".mp4" = false :=
  ⟨by decide, by decide, by decide⟩

/-- C8 (amended): media object keys are
`{baseKey}/{variant}_{hash}{ext}` with variant `original` for images and
`video` for videos, where `hash` is the first 16 hexadecimal characters
of the digest of the downloaded bytes, and `ext` is inferred from the
source URL's path suffix, falling back to `.jpg` for both images and
videos when the suffix is not recognised. -/
theorem C8_media_key_shape (hexdigest : List Nat → String)
    (fetch : String → List Nat) (decodeOk : List Nat → Bool)
    (thumbJpeg : List Nat → Nat → Nat → List Nat) (st : R2.R2State)
    (url base_key : String)
    (hhex : ∀ bs : List Nat, (hexdigest bs).length = 64 ∧
      (hexdigest bs).data.all R2.isHexChar = true) :
    (R2.upload_image hexdigest fetch decodeOk thumbJpeg st url base_key).2 =
        base_key ++ "/original_" ++ R2.strTake (hexdigest (fetch url)) 16 ++
          R2._get_file_extension url ∧
      (R2.upload_video hexdigest fetch st url base_key).2 =
        base_key ++ "/video_" ++ R2.strTake (hexdigest (fetch url)) 16 ++
          R2._get_file_extension url ∧
      R2._get_file_extension url ∈
        [".jpg", ".png", ".gif", ".webp", ".mp4", ".webm"] ∧
      (R2.strTake (hexdigest (fetch url)) 16).length = 16 ∧
      (R2.strTake (hexdigest (fetch url)) 16).data.all R2.isHexChar = true := by
  refine ⟨rfl, rfl, get_file_extension_mem url, ?_, ?_⟩
  · have h := (hhex (fetch url)).1
    have hlen : (hexdigest (fetch url)).data.length = 64 := h
    show ((hexdigest (fetch url)).data.take 16).length = 16
    rw [List.length_take, hlen]
    decide
  · have h := (hhex (fetch url)).2
    show ((hexdigest (fetch url)).data.take 16).all R2.isHexChar = true
    rw [List.all_eq_true] at h ⊢
    intro c hc
    exact h c (List.take_subset 16 _ hc)

/-- Witness for C8 (amended): a concrete image upload under a digest
producing 64 lower-case hex characters yields the expected key. -/
theorem C8_media_key_shape_witness :
    (R2.upload_image (fun _ => String.mk (List.replicate 64 'a'))
        (fun _ => [1, 2]) (fun _ => true) (fun _ _ _ => []) ⟨[], []⟩
        "https://x.com/a.png" "blocks/y").2 =
      "blocks/y/original_aaaaaaaaaaaaaaaa.png" := by
  have h := C8_media_key_shape (fun _ => String.mk (List.replicate 64 'a'))
    (fun _ => [1, 2]) (fun _ => true) (fun _ _ _ => []) ⟨[], []⟩
    "https://x.com/a.png" "blocks/y" (fun _ => ⟨rfl, rfl⟩)
  rw [h.1]
  decide

/-- C6 counterexample: an item job re-scraping an existing
`(source_id, external_id)` with a new title leaves the stored row — and
the object store — exactly as they were: the stored `title_raw` stays
`"old"` even though the latest scrape produced `"new"`.  The claimed
last-write-wins overwrite does not happen on this path. -/
theorem C6_rescrape_skips_counterexample :
    BlocksDb.ItemConsumer_process_message (fun _ => "h") (fun _ => [1])
        (fun _ => true) (fun _ _ _ => [])
        ⟨[⟨7, 1, "itemx", some "old", none, [], "k", "image", none, "u", none,
            none, default, none, none, none, none, 0, 0⟩], [], 8, 5⟩
        ⟨[], []⟩ 1
        (some ⟨"itemx", some "new", none, "image", "http://m/i.jpg", none,
          "http://s", []⟩) =
      Except.ok
        (⟨[⟨7, 1, "itemx", some "old", none, [], "k", "image", none, "u", none,
            none, default, none, none, none, none, 0, 0⟩], [], 8, 5⟩,
          ⟨[], []⟩) ∧
      (some "new" : Option String) ≠ some "old" :=
  ⟨rfl, by decide⟩

/-- C6 (amended): the item-job path scrapes the item on every delivery,
but when a Block row for `(source_id, external_id)` already exists the
existence check that follows the scrape returns early: no media upload
and no database write happen, the freshly scraped values are discarded,
and the stored raw fields keep their earlier values.  Newly scraped
values are only persisted when no row exists yet.  The theorem takes the
scrape's result as input and shows the database and object store come
back unchanged whenever a matching row exists. -/
theorem C6_existing_item_skipped (hexdigest : List Nat → String)
    (fetch : String → List Nat) (decodeOk : List Nat → Bool)
    (thumbJpeg : List Nat → Nat → Nat → List Nat) (db : BlocksDb.Db)
    (st : R2.R2State) (source_id : Nat) (item : BlocksDb.ScrapedItem)
    (hex : db.blocks.any
      (fun r => BlocksDb.keyMatches source_id item.external_id r) = true) :
    BlocksDb.ItemConsumer_process_message hexdigest fetch decodeOk thumbJpeg db
        st source_id (some item) = Except.ok (db, st) := by
  simp [BlocksDb.ItemConsumer_process_message, hex]

/-- Witness for C6 (amended): the concrete re-scrape above is skipped. -/
theorem C6_existing_item_skipped_witness :
    BlocksDb.ItemConsumer_process_message (fun _ => "h") (fun _ => [1])
        (fun _ => true) (fun _ _ _ => [])
        ⟨[⟨7, 1, "itemy", some "old", none, [], "k", "image", none, "u", none,
            none, default, none, none, none, none, 0, 0⟩], [], 8, 5⟩
        ⟨[], []⟩ 1
        (some ⟨"itemy", some "new2", none, "image", "http://m/j.jpg", none,
          "http://s", []⟩) =
      Except.ok
        (⟨[⟨7, 1, "itemy", some "old", none, [], "k", "image", none, "u", none,
            none, default, none, none, none, none, 0, 0⟩], [], 8, 5⟩,
          ⟨[], []⟩) :=
  C6_existing_item_skipped _ _ _ _ _ _ _ _ (by decide)

/-- Helper: the put log after `upload_file` — unchanged when the key
already exists, extended by exactly that key otherwise. -/
theorem r2_upload_file_putLog (st : R2.R2State) (d : List Nat) (k : String)
    (ct : Option String) :
    (R2.upload_file st d k ct).1.putLog =
      st.putLog ++ (if R2.object_exists st k then [] else [k]) := by
  unfold R2.upload_file
  dsimp only
  split_ifs <;> simp

/-- Helper: `upload_file` never removes objects. -/
theorem r2_upload_file_exists_mono (st : R2.R2State) (d : List Nat)
    (k ct k2 : _) (h : R2.object_exists st k2 = true) :
    R2.object_exists (R2.upload_file st d k ct).1 k2 = true := by
  unfold R2.upload_file
  dsimp only
  split_ifs with hex
  · exact h
  · simp only [R2.object_exists, List.any_append] at h ⊢
    simp [h]

/-- Helper: after `upload_file` the key exists. -/
theorem r2_upload_file_exists_self (st : R2.R2State) (d : List Nat)
    (k : String) (ct : Option String) :
    R2.object_exists (R2.upload_file st d k ct).1 k = true := by
  unfold R2.upload_file
  dsimp only
  split_ifs with hex
  · exact hex
  · simp [R2.object_exists, List.any_append]

/-- Helper: the thumbnail upload fold appends only `{size}_` keys to the
put log and never removes objects. -/
theorem r2_thumbsFold_spec (thumbJpeg : List Nat → Nat → Nat → List Nat)
    (data : List Nat) (base hash : String) :
    ∀ (szs : List (String × Nat × Nat)) (st : R2.R2State),
      ∃ Δ,
        (szs.foldl
            (fun st sz =>
              (R2.upload_file st (thumbJpeg data sz.2.1 sz.2.2)
                (base ++ "/" ++ sz.1 ++ "_" ++ hash ++ ".jpg")
                (some "image/jpeg")).1)
            st).putLog = st.putLog ++ Δ ∧
          (∀ k ∈ Δ, ∃ sz, sz ∈ szs ∧
            k = base ++ "/" ++ sz.1 ++ "_" ++ hash ++ ".jpg") ∧
          ∀ k2, R2.object_exists st k2 = true →
            R2.object_exists
              (szs.foldl
                (fun st sz =>
                  (R2.upload_file st (thumbJpeg data sz.2.1 sz.2.2)
                    (base ++ "/" ++ sz.1 ++ "_" ++ hash ++ ".jpg")
                    (some "image/jpeg")).1)
                st) k2 = true := by
  intro szs
  induction szs with
  | nil => exact fun st => ⟨[], by simp, by simp, fun _ h => h⟩
  | cons s ss ih =>
      intro st
      obtain ⟨Δ, hΔ, hshape, hmono⟩ := ih
        ((R2.upload_file st (thumbJpeg data s.2.1 s.2.2)
          (base ++ "/" ++ s.1 ++ "_" ++ hash ++ ".jpg") (some "image/jpeg")).1)
      refine ⟨(if R2.object_exists st (base ++ "/" ++ s.1 ++ "_" ++ hash ++ ".jpg")
        then [] else [base ++ "/" ++ s.1 ++ "_" ++ hash ++ ".jpg"]) ++ Δ, ?_, ?_, ?_⟩
      · simp only [List.foldl_cons, hΔ, r2_upload_file_putLog, List.append_assoc]
      · intro k hk
        rcases List.mem_append.mp hk with hk | hk
        · refine ⟨s, List.mem_cons_self _ _, ?_⟩
          split_ifs at hk with he
          · simp at hk
          · simpa using hk
        · obtain ⟨sz, hsz, hkeq⟩ := hshape k hk
          exact ⟨sz, List.mem_cons_of_mem _ hsz, hkeq⟩
      · intro k2 h
        exact hmono k2 (r2_upload_file_exists_mono _ _ _ _ _ h)

/-- Helper: the lengths of thumbnail keys and the original key never
coincide, so they are distinct strings. -/
theorem r2_thumbKey_ne_origKey (base h ext : String)
    (hext : ext ∈ [".jpg", ".png", ".gif", ".webp", ".mp4", ".webm"])
    (sz : String × Nat × Nat) (hsz : sz ∈ R2.thumbnailSizes) :
    base ++ "/" ++ sz.1 ++ "_" ++ h ++ ".jpg" ≠ base ++ "/original_" ++ h ++ ext := by
  intro he
  have hlen := congrArg String.length he
  simp only [String.length_append] at hlen
  have e1 : ("/" : String).length = 1 := by decide
  have e2 : ("_" : String).length = 1 := by decide
  have e3 : (".jpg" : String).length = 4 := by decide
  have e4 : ("/original_" : String).length = 10 := by decide
  have hsz2 : sz.1.length = 5 ∨ sz.1.length = 6 := by
    simp only [R2.thumbnailSizes, List.mem_cons, List.not_mem_nil, or_false] at hsz
    rcases hsz with h5 | h5 | h5 | h5 <;> rw [h5] <;> decide
  have hext2 : ext.length = 4 ∨ ext.length = 5 := by
    simp only [List.mem_cons, List.not_mem_nil, or_false] at hext
    rcases hext with h5 | h5 | h5 | h5 | h5 | h5 <;> rw [h5] <;> decide
  omega

/-- C4. Uploading the same image twice (the source URL fetching the same
bytes both times) returns the same content-addressed object key, and the
`put_object` for that key happens exactly once across the two calls: the
second call sees the key in the head-check and skips the put. -/
theorem C4_upload_image_idempotent (hexdigest : List Nat → String)
    (fetch : String → List Nat) (decodeOk : List Nat → Bool)
    (thumbJpeg : List Nat → Nat → Nat → List Nat) (st0 : R2.R2State)
    (url base_key : String)
    (hfresh : R2.object_exists st0
      (base_key ++ "/original_" ++ R2.strTake (hexdigest (fetch url)) 16 ++
        R2._get_file_extension url) = false) :
    (R2.upload_image hexdigest fetch decodeOk thumbJpeg st0 url base_key).2 =
        (R2.upload_image hexdigest fetch decodeOk thumbJpeg
          (R2.upload_image hexdigest fetch decodeOk thumbJpeg st0 url base_key).1
          url base_key).2 ∧
      (((R2.upload_image hexdigest fetch decodeOk thumbJpeg
              (R2.upload_image hexdigest fetch decodeOk thumbJpeg st0 url
                base_key).1 url base_key).1.putLog.drop
            st0.putLog.length).count
          (R2.upload_image hexdigest fetch decodeOk thumbJpeg st0 url
            base_key).2 = 1) ∧
      (((R2.upload_image hexdigest fetch decodeOk thumbJpeg
              (R2.upload_image hexdigest fetch decodeOk thumbJpeg st0 url
                base_key).1 url base_key).1.putLog.drop
            (R2.upload_image hexdigest fetch decodeOk thumbJpeg st0 url
              base_key).1.putLog.length).count
          (R2.upload_image hexdigest fetch decodeOk thumbJpeg st0 url
            base_key).2 = 0) := by
  set data := fetch url with hdata
  set hash := R2.strTake (hexdigest data) 16 with hhash
  set ext := R2._get_file_extension url with hext
  set key := base_key ++ "/original_" ++ hash ++ ext with hkey
  set st1 := (R2.upload_file st0 data key none).1 with hst1
  have f1 : st1.putLog = st0.putLog ++ [key] := by
    rw [hst1, r2_upload_file_putLog, hfresh]
    simp
  have f2 : R2.object_exists st1 key = true := r2_upload_file_exists_self _ _ _ _
  obtain ⟨Δ1, hΔ1, hshape1, hmono1⟩ :=
    r2_thumbsFold_spec thumbJpeg data base_key hash R2.thumbnailSizes st1
  set st2 := (R2.thumbnailSizes.foldl
    (fun st sz =>
      (R2.upload_file st (thumbJpeg data sz.2.1 sz.2.2)
        (base_key ++ "/" ++ sz.1 ++ "_" ++ hash ++ ".jpg")
        (some "image/jpeg")).1) st1) with hst2
  have hr1st : (R2.upload_image hexdigest fetch decodeOk thumbJpeg st0 url
      base_key).1 = if decodeOk data then st2 else st1 := by
    show (R2._generate_thumbnails decodeOk thumbJpeg st1 data base_key hash ext,
      key).1 = _
    unfold R2._generate_thumbnails
    dsimp only
  have hr1key : (R2.upload_image hexdigest fetch decodeOk thumbJpeg st0 url
      base_key).2 = key := rfl
  have hΔ1count : ∀ Δ : List String,
      (∀ k ∈ Δ, ∃ sz, sz ∈ R2.thumbnailSizes ∧
        k = base_key ++ "/" ++ sz.1 ++ "_" ++ hash ++ ".jpg") →
      Δ.count key = 0 := by
    intro Δ hsh
    rw [List.count_eq_zero]
    intro hmem
    obtain ⟨sz, hsz, hkeq⟩ := hsh key hmem
    exact r2_thumbKey_ne_origKey base_key hash ext (get_file_extension_mem url) sz
      hsz (hkeq.symm.trans hkey)
  -- state after call 1
  have hex1 : R2.object_exists ((R2.upload_image hexdigest fetch decodeOk
      thumbJpeg st0 url base_key).1) key = true := by
    rw [hr1st]
    split_ifs
    · exact hmono1 key f2
    · exact f2
  have hlog1 : ∃ Δ, (R2.upload_image hexdigest fetch decodeOk thumbJpeg st0 url
      base_key).1.putLog = st0.putLog ++ [key] ++ Δ ∧ Δ.count key = 0 := by
    rw [hr1st]
    split_ifs
    · exact ⟨Δ1, by rw [hΔ1, f1], hΔ1count Δ1 hshape1⟩
    · exact ⟨[], by rw [f1]; simp, rfl⟩
  -- call 2: the original upload is skipped
  set r1 := (R2.upload_image hexdigest fetch decodeOk thumbJpeg st0 url
    base_key).1 with hr1
  have g1 : (R2.upload_file r1 data key none).1 = r1 := by
    unfold R2.upload_file
    dsimp only
    rw [if_pos hex1]
  obtain ⟨Δ2, hΔ2, hshape2, _⟩ :=
    r2_thumbsFold_spec thumbJpeg data base_key hash R2.thumbnailSizes r1
  have hr2st : (R2.upload_image hexdigest fetch decodeOk thumbJpeg r1 url
      base_key).1.putLog = r1.putLog ++ (if decodeOk data then Δ2 else []) := by
    show (R2._generate_thumbnails decodeOk thumbJpeg (R2.upload_file r1 data key
      none).1 data base_key hash ext).putLog = _
    rw [g1]
    unfold R2._generate_thumbnails
    dsimp only
    split_ifs
    · exact hΔ2
    · simp
  have hΔ2count : (if decodeOk data then Δ2 else []).count key = 0 := by
    split_ifs
    · exact hΔ1count Δ2 hshape2
    · rfl
  obtain ⟨Δ, hΔ, hΔcount⟩ := hlog1
  refine ⟨rfl, ?_, ?_⟩
  · rw [hr2st, hr1key, hΔ]
    rw [show st0.putLog ++ [key] ++ Δ ++ (if decodeOk data then Δ2 else []) =
      st0.putLog ++ ([key] ++ Δ ++ (if decodeOk data then Δ2 else [])) by
        simp [List.append_assoc]]
    rw [List.drop_left]
    rw [List.count_append, List.count_append]
    simp [hΔcount, hΔ2count, List.count_singleton]
  · rw [hr2st, hr1key, List.drop_left, hΔ2count]

/-- Witness for C4: two identical uploads into an empty store put the
original object exactly once. -/
theorem C4_upload_image_idempotent_witness :
    ((R2.upload_image (fun _ => String.mk (List.replicate 64 'b'))
          (fun _ => [7, 8]) (fun _ => true) (fun _ _ _ => [9])
          (R2.upload_image (fun _ => String.mk (List.replicate 64 'b'))
            (fun _ => [7, 8]) (fun _ => true) (fun _ _ _ => [9])
            ⟨[], []⟩ "https://x.com/p.gif" "blocks/z").1
          "https://x.com/p.gif" "blocks/z").1.putLog.drop
        (R2.R2State.mk [] []).putLog.length).count
      (R2.upload_image (fun _ => String.mk (List.replicate 64 'b'))
        (fun _ => [7, 8]) (fun _ => true) (fun _ _ _ => [9])
        ⟨[], []⟩ "https://x.com/p.gif" "blocks/z").2 = 1 :=
  (C4_upload_image_idempotent (fun _ => String.mk (List.replicate 64 'b'))
    (fun _ => [7, 8]) (fun _ => true) (fun _ _ _ => [9]) ⟨[], []⟩
    "https://x.com/p.gif" "blocks/z" (by decide)).2.1

/-- Helper: the raw-field projection of an updated row is exactly the
written fields. -/
theorem applyFields_rawFields (r : BlocksDb.BlockRow) (f : BlocksDb.UpsertFields)
    (now : Nat) : (BlocksDb.applyFields r f now).rawFields = f := rfl

/-- Helper: updating raw fields does not change the row's key. -/
theorem applyFields_key (sid : Nat) (eid : String) (r : BlocksDb.BlockRow)
    (f : BlocksDb.UpsertFields) (now : Nat) :
    BlocksDb.keyMatches sid eid (BlocksDb.applyFields r f now) =
      BlocksDb.keyMatches sid eid r := rfl

/-- Helper: when the conflict update finds nothing, no row holds the key. -/
theorem uc_none_filter (sid : Nat) (eid : String) (f : BlocksDb.UpsertFields)
    (now : Nat) :
    ∀ bl : List BlocksDb.BlockRow,
      BlocksDb.updateConflicting sid eid f now bl = none →
      bl.filter (fun r => BlocksDb.keyMatches sid eid r) = [] := by
  intro bl
  induction bl with
  | nil => intro _; rfl
  | cons r rs ih =>
      intro h
      unfold BlocksDb.updateConflicting at h
      by_cases hk : BlocksDb.keyMatches sid eid r = true
      · simp [hk] at h
      · rw [if_neg hk] at h
        rcases huc : BlocksDb.updateConflicting sid eid f now rs with _ | p
        · simp [List.filter_cons, hk, ih huc]
        · rw [huc] at h
          rcases p with ⟨rs2, row⟩
          simp at h

/-- Helper: when the conflict update hits a row and at most one row holds
the key, the result holds exactly one row for the key, carrying the
written raw fields and the fresh `updated_at`. -/
theorem uc_some_filter (sid : Nat) (eid : String) (f : BlocksDb.UpsertFields)
    (now : Nat) :
    ∀ (bl bl2 : List BlocksDb.BlockRow) (row : BlocksDb.BlockRow),
      (bl.filter (fun r => BlocksDb.keyMatches sid eid r)).length ≤ 1 →
      BlocksDb.updateConflicting sid eid f now bl = some (bl2, row) →
      bl2.filter (fun r => BlocksDb.keyMatches sid eid r) = [row] ∧
        row.rawFields = f ∧ row.updated_at = now := by
  intro bl
  induction bl with
  | nil => intro bl2 row _ h; simp [BlocksDb.updateConflicting] at h
  | cons r rs ih =>
      intro bl2 row hcount h
      unfold BlocksDb.updateConflicting at h
      by_cases hk : BlocksDb.keyMatches sid eid r = true
      · rw [if_pos hk] at h
        obtain ⟨hbl2, hrow⟩ := Prod.mk.injEq .. ▸ Option.some.injEq .. ▸ h
        have hrs : rs.filter (fun r => BlocksDb.keyMatches sid eid r) = [] := by
          rw [List.filter_cons_of_pos hk] at hcount
          simp only [List.length_cons] at hcount
          have := Nat.le_of_succ_le_succ hcount
          exact List.length_eq_zero.mp (Nat.le_zero.mp this)
        subst hbl2
        subst hrow
        refine ⟨?_, rfl, rfl⟩
        rw [List.filter_cons_of_pos, hrs]
        rw [applyFields_key]
        exact hk
      · rw [if_neg hk] at h
        rcases huc : BlocksDb.updateConflicting sid eid f now rs with _ | ⟨rs2, row2⟩
        · rw [huc] at h; simp at h
        · rw [huc] at h
          simp only [Option.some.injEq, Prod.mk.injEq] at h
          obtain ⟨hbl2, hrow⟩ := h
          have hcount2 : (rs.filter (fun r => BlocksDb.keyMatches sid eid r)).length ≤ 1 := by
            rw [List.filter_cons_of_neg hk] at hcount
            exact hcount
          obtain ⟨h1, h2, h3⟩ := ih rs2 row2 hcount2 huc
          subst hbl2
          subst hrow
          refine ⟨?_, h2, h3⟩
          rw [List.filter_cons_of_neg hk]
          exact h1

/-- Helper: one conflict-resolving statement leaves exactly one row for
the key, holding the written fields; overrides, clock and other tables
are untouched. -/
theorem upsertStatement_spec (db : BlocksDb.Db) (sid : Nat) (eid : String)
    (f : BlocksDb.UpsertFields)
    (hcount : (db.blocks.filter
      (fun r => BlocksDb.keyMatches sid eid r)).length ≤ 1) :
    ((BlocksDb.upsertStatement db sid eid f).1.blocks.filter
        (fun r => BlocksDb.keyMatches sid eid r)).length = 1 ∧
      (∀ row ∈ (BlocksDb.upsertStatement db sid eid f).1.blocks.filter
          (fun r => BlocksDb.keyMatches sid eid r),
        row.rawFields = f ∧ row.updated_at = db.now) ∧
      (BlocksDb.upsertStatement db sid eid f).1.overrides = db.overrides ∧
      (BlocksDb.upsertStatement db sid eid f).1.now = db.now := by
  unfold BlocksDb.upsertStatement
  rcases huc : BlocksDb.updateConflicting sid eid f db.now db.blocks with _ | ⟨bl2, row⟩
  · have hnone := uc_none_filter sid eid f db.now db.blocks huc
    dsimp only
    constructor
    · rw [List.filter_append, hnone]
      simp [BlocksDb.keyMatches]
    · refine ⟨?_, rfl, rfl⟩
      intro row hrow
      rw [List.filter_append, hnone, List.nil_append] at hrow
      have : row ∈ List.filter (fun r => BlocksDb.keyMatches sid eid r) _ := hrow
      rcases List.mem_filter.mp this with ⟨hmem, _⟩
      simp only [List.mem_singleton] at hmem
      subst hmem
      exact ⟨rfl, rfl⟩
  · obtain ⟨h1, h2, h3⟩ := uc_some_filter sid eid f db.now db.blocks bl2 row hcount huc
    dsimp only
    refine ⟨by rw [h1]; rfl, ?_, rfl, rfl⟩
    intro row2 hrow2
    rw [h1] at hrow2
    simp only [List.mem_singleton] at hrow2
    subst hrow2
    exact ⟨h2, h3⟩

/-- Helper: a call that passes the media-key check runs the
conflict-resolving statement with the call's fields. -/
theorem upsert_ok (db : BlocksDb.Db) (item : BlocksDb.ParsedItem) (sid : Nat)
    (mk : BlocksDb.MediaKeys) (h : BlocksDb.hasPrimaryKey item mk = true) :
    BlocksDb.upsert_block_from_parsed_item db item sid mk =
      Except.ok (BlocksDb.upsertStatement db sid item.item_id
        (BlocksDb.callFields (item, mk))) := by
  unfold BlocksDb.hasPrimaryKey at h
  unfold BlocksDb.upsert_block_from_parsed_item
  rcases hp : BlocksDb.callPrimary (item, mk) with _ | pk
  · rw [hp] at h; simp at h
  · rw [hp] at h
    simp only [Bool.not_eq_eq_eq_not, Bool.not_true] at h
    dsimp only
    rw [if_neg (by simp_all)]
    simp [BlocksDb.callFields, hp]

/-- Helper: a call sequence splits at an append. -/
theorem upsertCalls_append (sid : Nat) :
    ∀ (xs ys : List (BlocksDb.ParsedItem × BlocksDb.MediaKeys)) (db : BlocksDb.Db),
      BlocksDb.upsertCalls db sid (xs ++ ys) =
        match BlocksDb.upsertCalls db sid xs with
        | Except.ok db1 => BlocksDb.upsertCalls db1 sid ys
        | Except.error e => Except.error e := by
  intro xs
  induction xs with
  | nil => intro ys db; rfl
  | cons c cs ih =>
      intro ys db
      rcases c with ⟨item, mk⟩
      have hstep : ∀ (zs : List (BlocksDb.ParsedItem × BlocksDb.MediaKeys))
          (d : BlocksDb.Db),
          BlocksDb.upsertCalls d sid ((item, mk) :: zs) =
            (match BlocksDb.upsert_block_from_parsed_item d item sid mk with
             | Except.ok p => BlocksDb.upsertCalls p.1 sid zs
             | Except.error e => Except.error e) := by
        intro zs d
        unfold BlocksDb.upsertCalls
        rcases BlocksDb.upsert_block_from_parsed_item d item sid mk with e | ⟨db2, row⟩
        · rfl
        · cases zs with
          | nil => rfl
          | cons c rest => rfl
      show BlocksDb.upsertCalls db sid ((item, mk) :: (cs ++ ys)) = _
      rw [hstep (cs ++ ys) db, hstep cs db]
      rcases h2 : BlocksDb.upsert_block_from_parsed_item db item sid mk with e | ⟨db2, row⟩
      · rfl
      · dsimp only
        exact ih ys db2

/-- Helper: a prefix of valid calls succeeds and preserves the overrides,
the clock, and the at-most-one-row bound. -/
theorem upsertCalls_prefix (sid : Nat) (eid : String) :
    ∀ (calls : List (BlocksDb.ParsedItem × BlocksDb.MediaKeys)) (db : BlocksDb.Db),
      (∀ c ∈ calls, c.1.item_id = eid ∧ BlocksDb.hasPrimaryKey c.1 c.2 = true) →
      (db.blocks.filter (fun r => BlocksDb.keyMatches sid eid r)).length ≤ 1 →
      ∃ db' : BlocksDb.Db,
        BlocksDb.upsertCalls db sid calls = Except.ok db' ∧
          db'.overrides = db.overrides ∧ db'.now = db.now ∧
          (db'.blocks.filter (fun r => BlocksDb.keyMatches sid eid r)).length ≤ 1 := by
  intro calls
  induction calls with
  | nil => intro db _ hc; exact ⟨db, rfl, rfl, rfl, hc⟩
  | cons c cs ih =>
      intro db hcond hcount
      obtain ⟨hid, hok⟩ := hcond c (List.mem_cons_self _ _)
      rcases c with ⟨item, mk⟩
      have hrun := upsert_ok db item sid mk hok
      have hid2 : item.item_id = eid := hid
      obtain ⟨h1, _, h3, h4⟩ := upsertStatement_spec db sid eid
        (BlocksDb.callFields (item, mk)) hcount
      rw [hid2] at hrun
      obtain ⟨db', hrun2, hov, hnow, hcnt⟩ :=
        ih ((BlocksDb.upsertStatement db sid eid
          (BlocksDb.callFields (item, mk))).1)
          (fun c hc => hcond c (List.mem_cons_of_mem _ hc)) (by rw [h1])
      refine ⟨db', ?_, by rw [hov, h3], by rw [hnow, h4], hcnt⟩
      show BlocksDb.upsertCalls db sid ((item, mk) :: cs) = Except.ok db'
      unfold BlocksDb.upsertCalls
      rw [hrun]
      exact hrun2

/-- C2. Upserting the same `(source_id, external_id)` any number of times
(each call passing the media-key check) leaves exactly one Block row for
that key; its raw fields are those computed from the final call, its
`updated_at` is the statement's `current_timestamp`, and the editorial
override table is byte-for-byte untouched. -/
theorem C2_upsert_single_row_last_write (db : BlocksDb.Db) (source_id : Nat)
    (eid : String) (calls : List (BlocksDb.ParsedItem × BlocksDb.MediaKeys))
    (last : BlocksDb.ParsedItem × BlocksDb.MediaKeys)
    (hids : ∀ c ∈ calls ++ [last], c.1.item_id = eid)
    (hok : ∀ c ∈ calls ++ [last], BlocksDb.hasPrimaryKey c.1 c.2 = true)
    (hinit : (db.blocks.filter
      (fun r => BlocksDb.keyMatches source_id eid r)).length ≤ 1) :
    ∃ db' : BlocksDb.Db,
      BlocksDb.upsertCalls db source_id (calls ++ [last]) = Except.ok db' ∧
        (db'.blocks.filter
          (fun r => BlocksDb.keyMatches source_id eid r)).length = 1 ∧
        (∀ row ∈ db'.blocks.filter (fun r => BlocksDb.keyMatches source_id eid r),
          row.rawFields = BlocksDb.callFields last ∧ row.updated_at = db.now) ∧
        db'.overrides = db.overrides := by
  obtain ⟨db1, hrun1, hov1, hnow1, hcnt1⟩ := upsertCalls_prefix source_id eid calls db
    (fun c hc => ⟨hids c (List.mem_append_left _ hc), hok c (List.mem_append_left _ hc)⟩)
    hinit
  obtain ⟨hidl, hokl⟩ := And.intro
    (hids last (List.mem_append_right _ (List.mem_singleton_self _)))
    (hok last (List.mem_append_right _ (List.mem_singleton_self _)))
  rcases last with ⟨item, mk⟩
  have hrunl := upsert_ok db1 item source_id mk hokl
  have hidl2 : item.item_id = eid := hidl
  rw [hidl2] at hrunl
  obtain ⟨g1, g2, g3, g4⟩ := upsertStatement_spec db1 source_id eid
    (BlocksDb.callFields (item, mk)) hcnt1
  refine ⟨(BlocksDb.upsertStatement db1 source_id eid
    (BlocksDb.callFields (item, mk))).1, ?_, g1, ?_, by rw [g3, hov1]⟩
  · rw [upsertCalls_append]
    rw [hrun1]
    show BlocksDb.upsertCalls db1 source_id [(item, mk)] = _
    unfold BlocksDb.upsertCalls
    rw [hrunl]
    rfl
  · intro row hrow
    obtain ⟨k1, k2⟩ := g2 row hrow
    exact ⟨k1, by rw [k2, hnow1]⟩

/-- Witness for C2: two concrete calls with the same key and different
fields succeed and leave a single row carrying the second call's
fields. -/
theorem C2_upsert_single_row_last_write_witness :
    ∃ db' : BlocksDb.Db,
      BlocksDb.upsertCalls ⟨[], [], 1, 9⟩ 4
          ([(⟨"itemz", "u1", some "t1", none, none, none, "image", none, none,
              none⟩, ⟨some "k1", none, none⟩)] ++
            [(⟨"itemz", "u2", some "t2", none, none, none, "image", none, none,
              none⟩, ⟨some "k2", none, none⟩)]) = Except.ok db' ∧
        (db'.blocks.filter (fun r => BlocksDb.keyMatches 4 "itemz" r)).length = 1 ∧
        (∀ row ∈ db'.blocks.filter (fun r => BlocksDb.keyMatches 4 "itemz" r),
          row.rawFields = BlocksDb.callFields
            (⟨"itemz", "u2", some "t2", none, none, none, "image", none, none,
              none⟩, ⟨some "k2", none, none⟩) ∧
            row.updated_at = (9 : Nat)) ∧
        db'.overrides = [] :=
  C2_upsert_single_row_last_write ⟨[], [], 1, 9⟩ 4 "itemz" _ _
    (by intro c hc; fin_cases hc <;> rfl)
    (by intro c hc; fin_cases hc <;> rfl)
    (by simp)

/-- Helper: an id extracted from a URL is always valid. -/
theorem extract_id_valid (url : String) (item_id : String)
    (h : SaveeScraper.extract_item_id_from_url url = some item_id) :
    SaveeScraper.is_valid_item_id item_id = true := by
  unfold SaveeScraper.extract_item_id_from_url at h
  rcases hs : SaveeScraper.searchItemPath url.data with _ | run
  · rw [hs] at h; simp at h
  · rw [hs] at h
    dsimp only at h
    by_cases hv : SaveeScraper.is_valid_item_id (String.mk run) = true
    · rw [if_pos hv] at h
      obtain rfl : String.mk run = item_id := by simpa using h
      exact hv
    · rw [if_neg hv] at h
      simp at h

/-- Helper: a validity-guarded stage loop is the `addId` fold over the
validity-filtered candidates. -/
theorem foldValid_eq_addLoop :
    ∀ (l : List String) (st : List String × List String),
      l.foldl
          (fun st item_id =>
            if SaveeScraper.is_valid_item_id item_id ∧ item_id ∉ st.1 then
              SaveeScraper.addId st item_id
            else st)
          st =
        SaveeScraper.addLoop st (l.filter SaveeScraper.is_valid_item_id) := by
  intro l
  induction l with
  | nil => intro st; rfl
  | cons x xs ih =>
      intro st
      by_cases hv : SaveeScraper.is_valid_item_id x = true
      · rw [List.filter_cons_of_pos hv]
        show (xs.foldl _ (if SaveeScraper.is_valid_item_id x ∧ x ∉ st.1 then
          SaveeScraper.addId st x else st)) = SaveeScraper.addLoop st (x :: _)
        have hstep : (if SaveeScraper.is_valid_item_id x ∧ x ∉ st.1 then
            SaveeScraper.addId st x else st) = SaveeScraper.addId st x := by
          by_cases hm : x ∈ st.1
          · rw [if_neg (by simp [hm]), SaveeScraper.addId, if_pos hm]
          · rw [if_pos ⟨hv, hm⟩]
        rw [hstep]
        exact ih (SaveeScraper.addId st x)
      · rw [List.filter_cons_of_neg hv]
        show (xs.foldl _ (if SaveeScraper.is_valid_item_id x ∧ x ∉ st.1 then
          SaveeScraper.addId st x else st)) = _
        rw [if_neg (by simp [hv])]
        exact ih st

/-- Helper: an extraction-guarded stage loop is the `addId` fold over the
extracted candidates. -/
theorem foldExtract_eq_addLoop :
    ∀ (l : List String) (st : List String × List String),
      l.foldl
          (fun st href =>
            match SaveeScraper.extract_item_id_from_url href with
            | some maybe => if maybe ∉ st.1 then SaveeScraper.addId st maybe else st
            | none => st)
          st =
        SaveeScraper.addLoop st
          (l.filterMap SaveeScraper.extract_item_id_from_url) := by
  intro l
  induction l with
  | nil => intro st; rfl
  | cons x xs ih =>
      intro st
      rcases hx : SaveeScraper.extract_item_id_from_url x with _ | m
      · rw [List.filterMap_cons_none hx]
        show (xs.foldl _ (match SaveeScraper.extract_item_id_from_url x with
          | some maybe => if maybe ∉ st.1 then SaveeScraper.addId st maybe else st
          | none => st)) = _
        rw [hx]
        exact ih st
      · rw [List.filterMap_cons_some hx]
        show (xs.foldl _ (match SaveeScraper.extract_item_id_from_url x with
          | some maybe => if maybe ∉ st.1 then SaveeScraper.addId st maybe else st
          | none => st)) = SaveeScraper.addLoop st (m :: _)
        rw [hx]
        have hstep : (if m ∉ st.1 then SaveeScraper.addId st m else st) =
            SaveeScraper.addId st m := by
          by_cases hm : m ∈ st.1
          · rw [if_neg (by simp [hm]), SaveeScraper.addId, if_pos hm]
          · rw [if_pos hm]
        dsimp only
        rw [hstep]
        exact ih (SaveeScraper.addId st m)

/-- Helper: elements produced by first-occurrence dedup come from the
candidate list and avoid the excluded set. -/
theorem dff_mem (x : String) :
    ∀ (l seen : List String), x ∈ SaveeScraper.dedupFirstFrom seen l →
      x ∈ l ∧ x ∉ seen := by
  intro l
  induction l with
  | nil => intro seen h; simp [SaveeScraper.dedupFirstFrom] at h
  | cons y ys ih =>
      intro seen h
      unfold SaveeScraper.dedupFirstFrom at h
      split_ifs at h with hy
      · obtain ⟨h1, h2⟩ := ih seen h
        exact ⟨List.mem_cons_of_mem _ h1, h2⟩
      · rcases List.mem_cons.mp h with rfl | h2
        · exact ⟨List.mem_cons_self _ _, hy⟩
        · obtain ⟨h3, h4⟩ := ih (y :: seen) h2
          exact ⟨List.mem_cons_of_mem _ h3, fun hc => h4 (List.mem_cons_of_mem _ hc)⟩

/-- Helper: first-occurrence dedup yields a duplicate-free list. -/
theorem dff_nodup :
    ∀ (l seen : List String), (SaveeScraper.dedupFirstFrom seen l).Nodup := by
  intro l
  induction l with
  | nil => intro seen; simp [SaveeScraper.dedupFirstFrom]
  | cons y ys ih =>
      intro seen
      unfold SaveeScraper.dedupFirstFrom
      split_ifs with hy
      · exact ih seen
      · refine List.nodup_cons.mpr ⟨?_, ih (y :: seen)⟩
        intro hc
        exact (dff_mem y ys (y :: seen) hc).2 (List.mem_cons_self _ _)

/-- Helper: the `addId` fold appends exactly the first-occurrence dedup
of the candidates, and keeps the seen-set and the output extensionally
equal. -/
theorem addLoop_spec :
    ∀ (l : List String) (st : List String × List String),
      (∀ x, x ∈ st.1 ↔ x ∈ st.2) →
      (SaveeScraper.addLoop st l).2 =
          st.2 ++ SaveeScraper.dedupFirstFrom st.1 l ∧
        (∀ x, x ∈ (SaveeScraper.addLoop st l).1 ↔ x ∈ (SaveeScraper.addLoop st l).2) := by
  intro l
  induction l with
  | nil => intro st hinv; exact ⟨by simp [SaveeScraper.addLoop, SaveeScraper.dedupFirstFrom], hinv⟩
  | cons x xs ih =>
      intro st hinv
      show (SaveeScraper.addLoop (SaveeScraper.addId st x) xs).2 = _ ∧
        ∀ y, y ∈ (SaveeScraper.addLoop (SaveeScraper.addId st x) xs).1 ↔
          y ∈ (SaveeScraper.addLoop (SaveeScraper.addId st x) xs).2
      by_cases hx : x ∈ st.1
      · have hid : SaveeScraper.addId st x = st := by
          rw [SaveeScraper.addId, if_pos hx]
        rw [hid]
        unfold SaveeScraper.dedupFirstFrom
        rw [if_pos hx]
        exact ih st hinv
      · have hid : SaveeScraper.addId st x = (x :: st.1, st.2 ++ [x]) := by
          rw [SaveeScraper.addId, if_neg hx]
        rw [hid]
        have hinv2 : ∀ y, y ∈ x :: st.1 ↔ y ∈ st.2 ++ [x] := by
          intro y
          simp only [List.mem_cons, List.mem_append, List.mem_singleton]
          rw [hinv y]
          tauto
        obtain ⟨h1, h2⟩ := ih (x :: st.1, st.2 ++ [x]) hinv2
        refine ⟨?_, h2⟩
        rw [h1]
        have hdff : SaveeScraper.dedupFirstFrom st.1 (x :: xs) =
            x :: SaveeScraper.dedupFirstFrom (x :: st.1) xs := by
          conv_lhs => unfold SaveeScraper.dedupFirstFrom
          rw [if_neg hx]
        rw [hdff]
        simp [List.append_assoc]

/-- Helper: the `ordered_ids` accumulator equals the first-occurrence
dedup of the five stages' candidates in stage order. -/
theorem ordered_item_ids_eq_dff (html : String) :
    SaveeScraper.ordered_item_ids html =
      SaveeScraper.dedupFirstFrom [] (SaveeScraper.allStageCands html) := by
  unfold SaveeScraper.ordered_item_ids
  unfold SaveeScraper.stage1Fold SaveeScraper.stage2Fold SaveeScraper.stage3Fold
    SaveeScraper.stage4Fold SaveeScraper.stage5Fold
  rw [foldValid_eq_addLoop, foldExtract_eq_addLoop, foldValid_eq_addLoop,
    foldExtract_eq_addLoop, foldValid_eq_addLoop]
  show (SaveeScraper.addLoop (SaveeScraper.addLoop (SaveeScraper.addLoop
    (SaveeScraper.addLoop (SaveeScraper.addLoop ([], [])
      (SaveeScraper.stage1Cands html)) (SaveeScraper.stage2Cands html))
      (SaveeScraper.stage3Cands html)) (SaveeScraper.stage4Cands html))
      (SaveeScraper.stage5Cands html)).2 = _
  rw [show ∀ a b c d e st, SaveeScraper.addLoop (SaveeScraper.addLoop
    (SaveeScraper.addLoop (SaveeScraper.addLoop (SaveeScraper.addLoop st a) b) c)
    d) e = SaveeScraper.addLoop st (a ++ b ++ c ++ d ++ e) from ?_]
  · obtain ⟨h1, _⟩ := addLoop_spec (SaveeScraper.allStageCands html) ([], [])
      (by intro x; simp)
    rw [SaveeScraper.allStageCands] at h1 ⊢
    simpa [List.append_assoc] using h1
  · intro a b c d e st
    simp [SaveeScraper.addLoop, List.foldl_append]

/-- Helper: every candidate of every stage is a valid identifier. -/
theorem allStageCands_valid (html : String) (x : String)
    (hx : x ∈ SaveeScraper.allStageCands html) :
    SaveeScraper.is_valid_item_id x = true := by
  unfold SaveeScraper.allStageCands at hx
  simp only [List.mem_append] at hx
  rcases hx with ((((hx | hx) | hx) | hx) | hx)
  · exact (List.mem_filter.mp hx).2
  · obtain ⟨href, _, hex⟩ := List.mem_filterMap.mp hx
    exact extract_id_valid href x hex
  · exact (List.mem_filter.mp hx).2
  · obtain ⟨href, _, hex⟩ := List.mem_filterMap.mp hx
    exact extract_id_valid href x hex
  · exact (List.mem_filter.mp hx).2

/-- C3 counterexample: the claim says discovery output is in
first-appearance order *in the document*.  In this HTML the identifier
`aitem11` appears at position 3 and `bitem22` only inside the injected
`data-savee-ids` attribute at position 33, yet discovery returns
`bitem22` first, because the injected-attribute stage runs before the
raw-text stage. -/
theorem C3_document_order_counterexample :
    SaveeScraper.ordered_item_ids
        "/i/aitem11 data-savee-ids=\"%5B%22bitem22%22%5D\"" =
      ["bitem22", "aitem11"] ∧
      SaveeScraper.firstSubstrIdx "aitem11".data
          "/i/aitem11 data-savee-ids=\"%5B%22bitem22%22%5D\"".data = some 3 ∧
      SaveeScraper.firstSubstrIdx "bitem22".data
          "/i/aitem11 data-savee-ids=\"%5B%22bitem22%22%5D\"".data = some 33 ∧
      (3 : Nat) < 33 :=
  ⟨by decide, by decide, by decide, by decide⟩

/-- C3 (amended). Discovery returns each valid identifier at most once,
in first-discovery order: the five extraction stages run in a fixed
priority order, each stage contributes its candidates in document order,
and the combined stream is de-duplicated keeping first occurrences.  For
identifiers found by a single stage — such as the raw-text sequence
`[a, b, a, c]` — document first-appearance order is preserved, yielding
`[a, b, c]`. -/
theorem C3_discovery_dedup_first_order :
    (∀ html base_url item_base_url : String,
      (SaveeScraper.ordered_item_ids html).Nodup ∧
        SaveeScraper.find_item_links_in_html html base_url item_base_url =
          (SaveeScraper.ordered_item_ids html).map
            (fun item_id => item_base_url ++ "/i/" ++ item_id ++ "/") ∧
        SaveeScraper.ordered_item_ids html =
          SaveeScraper.dedupFirstFrom [] (SaveeScraper.allStageCands html)) ∧
      SaveeScraper.ordered_item_ids "/i/aaaa1 /i/bbbb1 /i/aaaa1 /i/cccc1" =
        ["aaaa1", "bbbb1", "cccc1"] := by
  refine ⟨?_, by decide⟩
  intro html base_url item_base_url
  refine ⟨?_, rfl, ordered_item_ids_eq_dff html⟩
  rw [ordered_item_ids_eq_dff html]
  exact dff_nodup _ _

/-- C7. `is_valid_item_id` accepts exactly the strings of 5 to 24
characters drawn from `[A-Za-z0-9_-]` that are not one of the placeholder
tokens, and every identifier emitted by discovery passes it. -/
theorem C7_identifier_validation :
    (∀ s : String,
      SaveeScraper.is_valid_item_id s = true ↔
        5 ≤ s.length ∧ s.length ≤ 24 ∧ s.data.all SaveeScraper.isIdChar = true ∧
          s ≠ "undefined" ∧ s ≠ "null" ∧ s ≠ "None" ∧ s ≠ "") ∧
      ∀ html : String,
        (SaveeScraper.ordered_item_ids html).all SaveeScraper.is_valid_item_id =
          true := by
  constructor
  · intro s
    by_cases hb : (s == "undefined" || s == "null" || s == "None" || s == "") = true
    · rw [SaveeScraper.is_valid_item_id, if_pos hb]
      simp only [Bool.or_eq_true, beq_iff_eq] at hb
      constructor
      · intro hf
        exact absurd hf (by simp)
      · rintro ⟨_, _, _, h1, h2, h3, h4⟩
        rcases hb with ((hb | hb) | hb) | hb
        · exact absurd hb h1
        · exact absurd hb h2
        · exact absurd hb h3
        · exact absurd hb h4
    · rw [SaveeScraper.is_valid_item_id, if_neg hb]
      simp only [Bool.or_eq_true, beq_iff_eq, not_or] at hb
      obtain ⟨⟨⟨b1, b2⟩, b3⟩, b4⟩ := hb
      constructor
      · intro hv
        simp only [Bool.and_eq_true, decide_eq_true_eq] at hv
        exact ⟨hv.1.1, hv.1.2, hv.2, b1, b2, b3, b4⟩
      · rintro ⟨g1, g2, g3, _, _, _, _⟩
        simp only [Bool.and_eq_true, decide_eq_true_eq]
        exact ⟨⟨g1, g2⟩, g3⟩
  · intro html
    rw [List.all_eq_true]
    intro x hx
    rw [ordered_item_ids_eq_dff html] at hx
    exact allStageCands_valid html x (dff_mem x _ _ hx).1

/-- C5 counterexample: in a cycle that processes five items, the
crash-point snapshot taken after the fifth item finished processing but
before its flush completed shows five processed-but-unflushed
identifiers — not strictly fewer than five as the claim states. -/
theorem C5_five_unflushed_counterexample :
    (RunCycle.unflushed
        ((RunCycle.run_cycle ⟨∅, none⟩ ∅
            [("/i/itema1/", true), ("/i/itemb1/", true), ("/i/itemc1/", true),
              ("/i/itemd1/", true), ("/i/iteme1/", true)] 50).2.getD 5
          default)).length = 5 ∧
      ¬ ((5 : Nat) < 5) :=
  ⟨by decide, by decide⟩

/-- Helper: appending a not-yet-persisted id extends the unflushed list
by that id. -/
theorem filter_append_notmem (p : List String) (item_id : String)
    (m : Finset String) (h : item_id ∉ m) :
    (p ++ [item_id]).filter (fun x => x ∉ m) =
      p.filter (fun x => x ∉ m) ++ [item_id] := by
  rw [List.filter_append]
  congr 1
  simp [h]

/-- Helper: once every processed id is persisted, nothing is unflushed. -/
theorem filter_subset_nil (p : List String) (m : Finset String)
    (h : ∀ x ∈ p, x ∈ m) : p.filter (fun x => x ∉ m) = [] := by
  induction p with
  | nil => rfl
  | cons y ys ih =>
      rw [List.filter_cons_of_neg (by simp [h y (List.mem_cons_self _ _)])]
      exact ih (fun x hx => h x (List.mem_cons_of_mem _ hx))

/-- Helper: the processing loop maintains its invariant, only grows the
persisted set along its crash-point trace, keeps at most five
processed-but-unflushed identifiers at every snapshot, and every
snapshot's processed list is a prefix of the final one. -/
theorem runLinks_spec (maxItems : Nat) :
    ∀ (links : List (String × Bool)) (st : RunCycle.LoopState),
      RunCycle.Inv st →
      RunCycle.Inv (RunCycle.runLinks maxItems links st).1 ∧
        st.fs.main ⊆ (RunCycle.runLinks maxItems links st).1.fs.main ∧
        st.seen ⊆ (RunCycle.runLinks maxItems links st).1.seen ∧
        (∃ Δ, (RunCycle.runLinks maxItems links st).1.processedIds =
          st.processedIds ++ Δ) ∧
        List.Chain' RunCycle.persistMono
          (RunCycle.snapOf st :: (RunCycle.runLinks maxItems links st).2 ++
            [RunCycle.snapOf (RunCycle.runLinks maxItems links st).1]) ∧
        (∀ s ∈ (RunCycle.runLinks maxItems links st).2,
          (RunCycle.unflushed s).length ≤ 5) ∧
        ∀ s ∈ (RunCycle.runLinks maxItems links st).2,
          ∃ Δ, (RunCycle.runLinks maxItems links st).1.processedIds =
            s.processedIds ++ Δ := by
  intro links
  induction links with
  | nil =>
      intro st hInv
      refine ⟨hInv, Finset.Subset.refl _, Finset.Subset.refl _,
        ⟨[], (st.processedIds.append_nil).symm⟩, ?_,
        fun s hs => absurd hs (List.not_mem_nil s),
        fun s hs => absurd hs (List.not_mem_nil s)⟩
      show List.Chain' RunCycle.persistMono
        [RunCycle.snapOf st, RunCycle.snapOf st]
      simp [List.chain'_cons, RunCycle.persistMono]
  | cons link rest ih =>
      intro st hInv
      rcases link with ⟨href, ok⟩
      show RunCycle.Inv (RunCycle.runLinks maxItems ((href, ok) :: rest) st).1 ∧ _
      unfold RunCycle.runLinks
      by_cases hmax : st.processedCount ≥ maxItems
      · rw [if_pos hmax]
        refine ⟨hInv, Finset.Subset.refl _, Finset.Subset.refl _,
          ⟨[], (st.processedIds.append_nil).symm⟩, ?_,
          fun s hs => absurd hs (List.not_mem_nil s),
          fun s hs => absurd hs (List.not_mem_nil s)⟩
        simp [List.chain'_cons, RunCycle.persistMono]
      · rw [if_neg hmax]
        rcases hex : SaveeScraper.extract_item_id_from_url href with _ | item_id
        · exact ih st hInv
        · dsimp only
          by_cases hseen : item_id ∈ st.seen
          · rw [if_pos hseen]
            exact ih st hInv
          · rw [if_neg hseen]
            cases ok with
            | false =>
                show RunCycle.Inv (RunCycle.runLinks maxItems rest st).1 ∧ _
                exact ih st hInv
            | true =>
                rw [if_pos (rfl : true = true)]
                have hmainseen : st.fs.main ⊆ st.seen := hInv.1
                have hproc : ∀ x ∈ st.processedIds, x ∈ st.seen := hInv.2.1
                have hcnt : st.processedCount = st.processedIds.length := hInv.2.2.1
                have hufl : (RunCycle.unflushed (RunCycle.snapOf st)).length =
                  st.processedCount % 5 := hInv.2.2.2
                have hidnotmain : item_id ∉ st.fs.main :=
                  fun hc => hseen (hmainseen hc)
                have huflgrow : (RunCycle.unflushed
                    ⟨st.fs, st.processedIds ++ [item_id]⟩).length =
                    st.processedCount % 5 + 1 := by
                  show ((st.processedIds ++ [item_id]).filter
                    (fun x => x ∉ st.fs.main)).length = _
                  rw [filter_append_notmem _ _ _ hidnotmain]
                  rw [List.length_append]
                  have : (st.processedIds.filter
                    (fun x => x ∉ st.fs.main)).length = st.processedCount % 5 := hufl
                  rw [this]
                  rfl
                by_cases hflush : ((st.processedCount + 1) % 5 == 0) = true
                · rw [if_pos hflush]
                  have hflush2 : (st.processedCount + 1) % 5 = 0 := by
                    simpa using hflush
                  set seen2 := insert item_id st.seen with hseen2
                  set st1 : RunCycle.LoopState :=
                    ⟨(RunCycle.save_seen_ids st.fs seen2).2, seen2,
                      st.processedCount + 1,
                      st.processedIds ++ [item_id]⟩ with hst1
                  have hInv1 : RunCycle.Inv st1 := by
                    refine ⟨Finset.Subset.refl _, ?_, ?_, ?_⟩
                    · intro x hx
                      rcases List.mem_append.mp hx with hx | hx
                      · exact Finset.mem_insert_of_mem (hproc x hx)
                      · simp only [List.mem_singleton] at hx
                        subst hx
                        exact Finset.mem_insert_self _ _
                    · show st.processedCount + 1 =
                        (st.processedIds ++ [item_id]).length
                      rw [List.length_append, hcnt]
                      rfl
                    · show ((st.processedIds ++ [item_id]).filter
                        (fun x => x ∉ seen2)).length = (st.processedCount + 1) % 5
                      rw [filter_subset_nil, hflush2]
                      · rfl
                      · intro x hx
                        rcases List.mem_append.mp hx with hx | hx
                        · exact Finset.mem_insert_of_mem (hproc x hx)
                        · simp only [List.mem_singleton] at hx
                          subst hx
                          exact Finset.mem_insert_self _ _
                  obtain ⟨i1, i2, i3, ⟨Δ, i4⟩, i5, i6, i7⟩ := ih st1 hInv1
                  have hsub1 : st.fs.main ⊆ seen2 :=
                    fun x hx => Finset.mem_insert_of_mem (hmainseen hx)
                  refine ⟨i1, ?_, ?_, ?_, ?_, ?_, ?_⟩
                  · exact Finset.Subset.trans hsub1 i2
                  · exact Finset.Subset.trans
                      (fun x hx => Finset.mem_insert_of_mem hx) i3
                  · exact ⟨[item_id] ++ Δ, by rw [i4]; simp⟩
                  · show List.Chain' RunCycle.persistMono
                      (RunCycle.snapOf st :: RunCycle.Snap.mk st.fs _ ::
                        RunCycle.Snap.mk _ _ :: RunCycle.Snap.mk _ _ ::
                        ((RunCycle.runLinks maxItems rest st1).2 ++
                          [RunCycle.snapOf (RunCycle.runLinks maxItems rest st1).1]))
                    rw [List.chain'_cons, List.chain'_cons, List.chain'_cons]
                    refine ⟨Finset.Subset.refl _, Finset.Subset.refl _, hsub1, i5⟩
                  · intro s hs
                    simp only [List.mem_cons] at hs
                    rcases hs with hs | hs | hs | hs
                    · subst hs
                      show (RunCycle.unflushed ⟨st.fs, _⟩).length ≤ 5
                      rw [huflgrow]
                      omega
                    · subst hs
                      show (RunCycle.unflushed
                        ⟨st.fs, st.processedIds ++ [item_id]⟩).length ≤ 5
                      rw [huflgrow]
                      omega
                    · subst hs
                      show ((st.processedIds ++ [item_id]).filter
                        (fun x => x ∉ seen2)).length ≤ 5
                      rw [filter_subset_nil]
                      · simp
                      · intro x hx
                        rcases List.mem_append.mp hx with hx | hx
                        · exact Finset.mem_insert_of_mem (hproc x hx)
                        · simp only [List.mem_singleton] at hx
                          subst hx
                          exact Finset.mem_insert_self _ _
                    · exact i6 s hs
                  · intro s hs
                    simp only [List.mem_cons] at hs
                    rcases hs with hs | hs | hs | hs
                    · subst hs
                      exact ⟨Δ, by rw [i4]⟩
                    · subst hs
                      exact ⟨Δ, by rw [i4]⟩
                    · subst hs
                      exact ⟨Δ, by rw [i4]⟩
                    · exact i7 s hs
                · rw [if_neg hflush]
                  have hflush2 : (st.processedCount + 1) % 5 ≠ 0 := by
                    simpa using hflush
                  set seen2 := insert item_id st.seen with hseen2
                  set st1 : RunCycle.LoopState :=
                    ⟨st.fs, seen2, st.processedCount + 1,
                      st.processedIds ++ [item_id]⟩ with hst1
                  have hInv1 : RunCycle.Inv st1 := by
                    refine ⟨?_, ?_, ?_, ?_⟩
                    · exact fun x hx => Finset.mem_insert_of_mem (hmainseen hx)
                    · intro x hx
                      rcases List.mem_append.mp hx with hx | hx
                      · exact Finset.mem_insert_of_mem (hproc x hx)
                      · simp only [List.mem_singleton] at hx
                        subst hx
                        exact Finset.mem_insert_self _ _
                    · show st.processedCount + 1 =
                        (st.processedIds ++ [item_id]).length
                      rw [List.length_append, hcnt]
                      rfl
                    · show (RunCycle.unflushed
                        ⟨st.fs, st.processedIds ++ [item_id]⟩).length =
                        (st.processedCount + 1) % 5
                      rw [huflgrow]
                      omega
                  obtain ⟨i1, i2, i3, ⟨Δ, i4⟩, i5, i6, i7⟩ := ih st1 hInv1
                  refine ⟨i1, i2, ?_, ?_, ?_, ?_, ?_⟩
                  · exact Finset.Subset.trans
                      (fun x hx => Finset.mem_insert_of_mem hx) i3
                  · exact ⟨[item_id] ++ Δ, by rw [i4]; simp⟩
                  · show List.Chain' RunCycle.persistMono
                      (RunCycle.snapOf st :: RunCycle.Snap.mk st.fs _ ::
                        ((RunCycle.runLinks maxItems rest st1).2 ++
                          [RunCycle.snapOf (RunCycle.runLinks maxItems rest st1).1]))
                    rw [List.chain'_cons]
                    exact ⟨Finset.Subset.refl _, i5⟩
                  · intro s hs
                    simp only [List.mem_cons] at hs
                    rcases hs with hs | hs
                    · subst hs
                      show (RunCycle.unflushed ⟨st.fs, _⟩).length ≤ 5
                      rw [huflgrow]
                      omega
                    · exact i6 s hs
                  · intro s hs
                    simp only [List.mem_cons] at hs
                    rcases hs with hs | hs
                    · subst hs
                      exact ⟨Δ, by rw [i4]⟩
                    · exact i7 s hs

/-- C5 (amended): during every crawl cycle the persisted seen-set only
ever grows across all crash-point snapshots (append-only), at every
crash point at most 5 (not strictly fewer than 5) processed identifiers
are unflushed, the end-of-cycle flush persists the full seen-set with no
temp file left, and no processed identifier is ever lost from the final
persisted set. -/
theorem C5_seen_set_append_only_bounded_unflushed
    (fs0 : RunCycle.FsState) (dirs : Finset String)
    (links : List (String × Bool)) (maxItems : Nat) :
    List.Pairwise RunCycle.persistMono
        (RunCycle.run_cycle fs0 dirs links maxItems).2 ∧
      (∀ s ∈ (RunCycle.run_cycle fs0 dirs links maxItems).2,
        (RunCycle.unflushed s).length ≤ 5) ∧
      (RunCycle.run_cycle fs0 dirs links maxItems).1.fs.main =
        (RunCycle.run_cycle fs0 dirs links maxItems).1.seen ∧
      (RunCycle.run_cycle fs0 dirs links maxItems).1.fs.tmp = none ∧
      ∀ s ∈ (RunCycle.run_cycle fs0 dirs links maxItems).2,
        ∀ x ∈ s.processedIds,
          x ∈ (RunCycle.run_cycle fs0 dirs links maxItems).1.fs.main := by
  haveI : IsTrans RunCycle.Snap RunCycle.persistMono :=
    ⟨fun a b c hab hbc => Finset.Subset.trans hab hbc⟩
  set st0 : RunCycle.LoopState := ⟨fs0, fs0.main ∪ dirs, 0, []⟩ with hst0
  have hInv0 : RunCycle.Inv st0 :=
    ⟨Finset.subset_union_left, fun x hx => absurd hx (List.not_mem_nil x),
      rfl, rfl⟩
  obtain ⟨i1, i2, i3, ⟨Δ, i4⟩, i5, i6, i7⟩ :=
    runLinks_spec maxItems links st0 hInv0
  set rl := RunCycle.runLinks maxItems links st0 with hrl
  have hchain : List.Chain' RunCycle.persistMono
      (RunCycle.snapOf st0 :: rl.2 ++
        [RunCycle.snapOf rl.1,
          RunCycle.Snap.mk ⟨rl.1.fs.main, some rl.1.seen⟩ rl.1.processedIds,
          RunCycle.Snap.mk ⟨rl.1.seen, none⟩ rl.1.processedIds]) := by
    have heq : (RunCycle.snapOf st0 :: rl.2 ++
        [RunCycle.snapOf rl.1,
          RunCycle.Snap.mk ⟨rl.1.fs.main, some rl.1.seen⟩ rl.1.processedIds,
          RunCycle.Snap.mk ⟨rl.1.seen, none⟩ rl.1.processedIds]) =
        (RunCycle.snapOf st0 :: rl.2 ++ [RunCycle.snapOf rl.1]) ++
          [RunCycle.Snap.mk ⟨rl.1.fs.main, some rl.1.seen⟩ rl.1.processedIds,
            RunCycle.Snap.mk ⟨rl.1.seen, none⟩ rl.1.processedIds] := by
      simp
    rw [heq]
    refine List.Chain'.append i5 ?_ ?_
    · exact List.chain'_cons.mpr ⟨i1.1, List.chain'_singleton _⟩
    · intro x hx y hy
      rw [show (RunCycle.snapOf st0 :: rl.2 ++ [RunCycle.snapOf rl.1]) =
        (RunCycle.snapOf st0 :: rl.2) ++ [RunCycle.snapOf rl.1] from rfl,
        List.getLast?_concat] at hx
      simp only [Option.mem_def, Option.some.injEq, List.head?] at hx hy
      subst hx
      subst hy
      exact Finset.Subset.refl _
  refine ⟨?_, ?_, rfl, rfl, ?_⟩
  · exact List.chain'_iff_pairwise.mp hchain
  · intro s hs
    have hs' : s ∈ RunCycle.snapOf st0 :: rl.2 ++
        [RunCycle.snapOf rl.1,
          RunCycle.Snap.mk ⟨rl.1.fs.main, some rl.1.seen⟩ rl.1.processedIds,
          RunCycle.Snap.mk ⟨rl.1.seen, none⟩ rl.1.processedIds] := hs
    simp only [List.mem_cons, List.mem_append, List.mem_singleton,
      List.mem_nil_iff, or_false] at hs'
    rcases hs' with (hs' | hs') | hs' | hs' | hs'
    · subst hs'
      exact Nat.zero_le 5
    · exact i6 s hs'
    · subst hs'
      have h4 := i1.2.2.2
      omega
    · subst hs'
      have hsame : RunCycle.unflushed
          (RunCycle.Snap.mk ⟨rl.1.fs.main, some rl.1.seen⟩ rl.1.processedIds) =
          RunCycle.unflushed (RunCycle.snapOf rl.1) := rfl
      rw [hsame]
      have h4 := i1.2.2.2
      omega
    · subst hs'
      have hnil : RunCycle.unflushed
          (RunCycle.Snap.mk ⟨rl.1.seen, none⟩ rl.1.processedIds) = [] :=
        filter_subset_nil _ _ i1.2.1
      rw [hnil]
      exact Nat.zero_le 5
  · intro s hs x hx
    have hs' : s ∈ RunCycle.snapOf st0 :: rl.2 ++
        [RunCycle.snapOf rl.1,
          RunCycle.Snap.mk ⟨rl.1.fs.main, some rl.1.seen⟩ rl.1.processedIds,
          RunCycle.Snap.mk ⟨rl.1.seen, none⟩ rl.1.processedIds] := hs
    simp only [List.mem_cons, List.mem_append, List.mem_singleton,
      List.mem_nil_iff, or_false] at hs'
    rcases hs' with (hs' | hs') | hs' | hs' | hs'
    · subst hs'
      exact absurd hx (List.not_mem_nil x)
    · obtain ⟨Δ₂, hΔ⟩ := i7 s hs'
      have hx2 : x ∈ rl.1.processedIds := by
        rw [hΔ]
        exact List.mem_append_left _ hx
      exact i1.2.1 x hx2
    · subst hs'
      exact i1.2.1 x hx
    · subst hs'
      exact i1.2.1 x hx
    · subst hs'
      exact i1.2.1 x hx
